import Mathlib

/-
  Verification development for the ROS2Visualizer flight-trajectory CSV
  pipeline (src/app.py, src/utils/data_processor.py, src/utils/data_cleaner.py).

  The Python code is shallowly embedded over executable Lean definitions:
  Python floats are modelled as exact rationals (structure Q below, kept in
  lowest terms with a nonnegative denominator), float NaN / missing cells as
  the `none` case of `Option Q`, raised exceptions as the error case of
  `Except String`, and pandas DataFrames as a list of named, dtype-tagged
  columns.  `math.sqrt` is modelled by an exact integer square root on
  numerator and denominator; it agrees with the real square root on
  perfect-square rationals, which covers every concrete input evaluated in
  this file, and no theorem below depends on its value elsewhere.
-/

/-- Fuel-driven Euclidean gcd; `gcdFuel (a+1) a b` computes `Nat.gcd a b`
    with recursion depth bounded by the fuel, so the kernel can reduce it. -/
def gcdFuel : Nat → Nat → Nat → Nat
  | 0, _, b => b
  | f + 1, a, b => if a = 0 then b else gcdFuel f (b % a) a

/-- Greatest common divisor via `gcdFuel`. -/
def natGcd (a b : Nat) : Nat := gcdFuel (a + 1) a b

/-- Linear-search integer square root: the largest `k ≤ n` with `k * k ≤ n`. -/
def natSqrtAux (n : Nat) : Nat → Nat
  | 0 => 0
  | k + 1 => if (k + 1) * (k + 1) ≤ n then k + 1 else natSqrtAux n k

/-- Integer square root (exact on perfect squares). -/
def natSqrt (n : Nat) : Nat := natSqrtAux n n

/-- Exact rational numbers modelling Python float values.  All constructors
    used by the embedding go through `Q.mk2`, which normalizes sign and
    reduces by the gcd, so semantically equal values are structurally equal. -/
structure Q where
  n : Int
  d : Int
deriving DecidableEq, Repr

/-- Build a rational `a / b` in lowest terms with nonnegative denominator. -/
def Q.mk2 (a b : Int) : Q :=
  if b = 0 then ⟨a, 0⟩
  else
    let a2 : Int := if b < 0 then -a else a
    let b2 : Int := if b < 0 then -b else b
    let g : Int := Int.ofNat (natGcd a2.natAbs b2.natAbs)
    ⟨a2 / g, b2 / g⟩

/-- Embed an integer. -/
def Q.ofInt (i : Int) : Q := ⟨i, 1⟩

/-- Embed a natural number. -/
def Q.ofN (m : Nat) : Q := ⟨Int.ofNat m, 1⟩

/-- Zero. -/
def Q.zero : Q := ⟨0, 1⟩

/-- Addition. -/
def Q.add (x y : Q) : Q := Q.mk2 (x.n * y.d + y.n * x.d) (x.d * y.d)

/-- Subtraction. -/
def Q.sub (x y : Q) : Q := Q.mk2 (x.n * y.d - y.n * x.d) (x.d * y.d)

/-- Multiplication. -/
def Q.mul (x y : Q) : Q := Q.mk2 (x.n * y.n) (x.d * y.d)

/-- Negation. -/
def Q.neg (x : Q) : Q := ⟨-x.n, x.d⟩

/-- Division (caller guarantees `y` is nonzero, as the Python code does at
    every division site that cannot raise; raising sites use `pyDiv`). -/
def Q.div (x y : Q) : Q := Q.mk2 (x.n * y.d) (x.d * y.n)

/-- Strict order on rationals with nonnegative denominators. -/
def Q.ltB (x y : Q) : Bool := x.n * y.d < y.n * x.d

/-- Nonstrict order on rationals with nonnegative denominators. -/
def Q.leB (x y : Q) : Bool := x.n * y.d ≤ y.n * x.d

/-- Test for zero (on normalized values, zero iff the numerator is zero). -/
def Q.isZero (x : Q) : Bool := x.n = 0

/-- Exact square root on nonnegative rationals; exact on perfect squares,
    which is the only case any theorem in this file evaluates. -/
def Q.sqrtQ (x : Q) : Q := ⟨Int.ofNat (natSqrt x.n.toNat), Int.ofNat (natSqrt x.d.toNat)⟩

/-- A Python float value that may be NaN (`none`): the result of pandas cell
    arithmetic with missing values. -/
abbrev QQ := Option Q

/-- NaN-propagating addition. -/
def qqAdd (a b : QQ) : QQ :=
  match a, b with
  | some x, some y => some (x.add y)
  | _, _ => none

/-- NaN-propagating subtraction. -/
def qqSub (a b : QQ) : QQ :=
  match a, b with
  | some x, some y => some (x.sub y)
  | _, _ => none

/-- NaN-propagating multiplication. -/
def qqMul (a b : QQ) : QQ :=
  match a, b with
  | some x, some y => some (x.mul y)
  | _, _ => none

/-- NaN-propagating negation. -/
def qqNeg (a : QQ) : QQ := a.map Q.neg

/-- NaN-propagating division by a nonzero constant. -/
def qqDivC (a : QQ) (c : Q) : QQ := a.map (fun x => x.div c)

/-- NaN-propagating square root (`math.sqrt(nan)` is nan). -/
def qqSqrt (a : QQ) : QQ := a.map Q.sqrtQ

/-- Comparison with Python float semantics: any comparison with NaN is False. -/
def qqLtB (a b : QQ) : Bool :=
  match a, b with
  | some x, some y => Q.ltB x y
  | _, _ => false

/-- Strictly-greater comparison, NaN-false. -/
def qqGtB (a b : QQ) : Bool :=
  match a, b with
  | some x, some y => Q.ltB y x
  | _, _ => false

/-- Model of a pandas `Series.min()` with its default `skipna=True`:
    the minimum of the non-NaN entries, NaN when all entries are NaN. -/
def listMinQQ (l : List QQ) : QQ :=
  l.foldl
    (fun acc v =>
      match acc, v with
      | none, w => w
      | some a, none => some a
      | some a, some b => some (if Q.ltB b a then b else a))
    none

/-- Model of a pandas `Series.max()` with `skipna=True`. -/
def listMaxQQ (l : List QQ) : QQ :=
  l.foldl
    (fun acc v =>
      match acc, v with
      | none, w => w
      | some a, none => some a
      | some a, some b => some (if Q.ltB a b then b else a))
    none

/-- Sum of a list of rationals. -/
def listSumQ (l : List Q) : Q := l.foldl Q.add Q.zero

/-- ASCII lower-casing of one character, modelling `str.lower()` on the
    ASCII column names this code manipulates. -/
def lcChar (c : Char) : Char :=
  if 65 ≤ c.toNat ∧ c.toNat ≤ 90 then Char.ofNat (c.toNat + 32) else c

/-- Model of `str.lower()`. -/
def strLower (s : String) : String := ⟨s.toList.map lcChar⟩

/-- Does list `l` start with list `p`? -/
def listStartsWith : List Char → List Char → Bool
  | [], _ => true
  | _ :: _, [] => false
  | a :: ps, b :: ls => a == b && listStartsWith ps ls

/-- Does `needle` occur as a contiguous sublist of `hay`? -/
def listContainsSub (needle : List Char) : List Char → Bool
  | [] => listStartsWith needle []
  | c :: t => listStartsWith needle (c :: t) || listContainsSub needle t

/-- Model of the Python substring test `needle in hay`. -/
def strContains (hay needle : String) : Bool := listContainsSub needle.toList hay.toList

/-- Model of `str.split(sep)` for a one-character separator. -/
def splitChars (sep : Char) : List Char → List (List Char)
  | [] => [[]]
  | c :: cs =>
    let r := splitChars sep cs
    if c == sep then [] :: r
    else
      match r with
      | [] => [[c]]
      | h :: t => (c :: h) :: t

/-- Python whitespace test for `str.strip()` (ASCII whitespace). -/
def pyIsSpace (c : Char) : Bool :=
  c == ' ' || c == '\t' || c == '\n' || c == '\r' || c == '\x0b' || c == '\x0c'

/-- Model of `str.strip()`. -/
def pyStrip (cs : List Char) : List Char :=
  ((cs.dropWhile pyIsSpace).reverse.dropWhile pyIsSpace).reverse

/-- ASCII decimal digit test (the ASCII case of Python `str.isdigit`, which
    is the only case exercised by CSV numeric fields). -/
def pyIsDigitChar (c : Char) : Bool := 48 ≤ c.toNat && c.toNat ≤ 57

/-- Model of Python `str.isdigit()`: nonempty and all digits. -/
def pyIsdigit (cs : List Char) : Bool := !cs.isEmpty && cs.all pyIsDigitChar

/-- Model of `str.replace(t, "")`: remove every occurrence of character `t`. -/
def pyReplaceEmpty (t : Char) (cs : List Char) : List Char := cs.filter (fun c => c != t)

/-- A pandas cell value: a numeric value, a missing value (NaN), or a
    non-numeric string (modelling object-dtype cells that `float()` rejects). -/
inductive PyVal where
  | num (q : Q)
  | nan
  | str (s : String)
deriving DecidableEq, Repr

/-- Numeric view of a cell, as used by pandas column arithmetic and
    aggregation: non-numeric cells behave as missing values. -/
def cellQQ : PyVal → QQ
  | .num q => some q
  | _ => none

/-- Model of `float(cell)`: numeric cells convert, `float(nan)` is nan, and a
    non-numeric string raises `ValueError`. -/
def pyFloat : PyVal → Except String QQ
  | .num q => .ok (some q)
  | .nan => .ok none
  | .str s => .error ("could not convert string to float: " ++ s)

/-- Model of `x / y` on Python floats at the one site where the code can
    raise `ZeroDivisionError` (a NaN operand propagates without raising). -/
def pyDiv (x : Q) (y : QQ) : Except String QQ :=
  match y with
  | none => .ok none
  | some q => if q.isZero then .error "float division by zero" else .ok (some (x.div q))

/-- One DataFrame column: its label, whether its dtype is numeric
    (`select_dtypes(include=[number])` membership), and its cells. -/
structure PyCol where
  name : String
  isNum : Bool
  cells : List PyVal
deriving DecidableEq, Repr

/-- A pandas DataFrame with the default RangeIndex: an ordered list of
    columns, all of the same length. -/
structure PyDf where
  cols : List PyCol
deriving DecidableEq, Repr

/-- Number of rows (`len(df)`). -/
def PyDf.nrows (df : PyDf) : Nat :=
  match df.cols with
  | [] => 0
  | c :: _ => c.cells.length

/-- Column labels in order (`df.columns`). -/
def PyDf.names (df : PyDf) : List String := df.cols.map PyCol.name

/-- Membership test `name in df.columns`. -/
def PyDf.hasCol (df : PyDf) (n : String) : Bool := df.names.contains n

/-- First column with the given label (`df[n]` for unique labels). -/
def PyDf.getCol (df : PyDf) (n : String) : Option PyCol :=
  df.cols.find? (fun c => c.name == n)

/-- Cell of column `n` at row `i`. -/
def PyDf.cellAt (df : PyDf) (n : String) (i : Nat) : PyVal :=
  match df.getCol n with
  | some c => c.cells.getD i .nan
  | none => .nan

/-- Numeric view of a whole column. -/
def PyDf.colQQ (df : PyDf) (n : String) : List QQ :=
  match df.getCol n with
  | some c => c.cells.map cellQQ
  | none => []

/-- Model of `Series.dropna()` on the numeric view of a column. -/
def PyDf.colDropna (df : PyDf) (n : String) : List Q := (df.colQQ n).filterMap id

/-- Model of `df.empty`: no rows or no columns. -/
def PyDf.isEmptyDf (df : PyDf) : Bool := df.cols.isEmpty || df.nrows == 0

/-- Encode a list of float values as numeric cells. -/
def qqCells (vals : List QQ) : List PyVal :=
  vals.map (fun v => match v with | some q => PyVal.num q | none => PyVal.nan)

/-- Model of `df[n] = values` for a float-valued list: replaces the cells of
    every column labelled `n`, or appends a new numeric column. -/
def PyDf.setNumCol (df : PyDf) (n : String) (vals : List QQ) : PyDf :=
  if df.hasCol n then
    ⟨df.cols.map (fun c => if c.name == n then ⟨n, true, qqCells vals⟩ else c)⟩
  else
    ⟨df.cols ++ [⟨n, true, qqCells vals⟩]⟩

/-- Lookup in an insertion-ordered string-keyed dict. -/
def lookupKV (m : List (String × String)) (k : String) : Option String :=
  (m.find? (fun p => p.1 == k)).map Prod.snd

/-- Model of `d[k] = v` on an insertion-ordered Python dict. -/
def insertKV (m : List (String × String)) (k v : String) : List (String × String) :=
  if m.any (fun p => p.1 == k) then m.map (fun p => if p.1 == k then (k, v) else p)
  else m ++ [(k, v)]

/-- Model of `df.rename(columns=mapping)`: every column whose label is a key
    of the mapping takes the mapped name. -/
def PyDf.renameCols (df : PyDf) (m : List (String × String)) : PyDf :=
  ⟨df.cols.map (fun c => { c with name := (lookupKV m c.name).getD c.name })⟩

/-- Model of `df.drop(columns=S)`: remove every column whose label is in `S`. -/
def PyDf.dropCols (df : PyDf) (s : List String) : PyDf :=
  ⟨df.cols.filter (fun c => !(s.contains c.name))⟩

/-- Keep the rows whose mask entry is true
    (`df[mask].reset_index(drop=True)`). -/
def maskKeep (mask : List Bool) (cells : List PyVal) : List PyVal :=
  ((cells.zip mask).filter (fun p => p.2)).map Prod.fst

/-- Model of boolean-mask row filtering followed by `reset_index(drop=True)`. -/
def PyDf.filterRows (df : PyDf) (mask : List Bool) : PyDf :=
  ⟨df.cols.map (fun c => { c with cells := maskKeep mask c.cells })⟩

/-- Model of `df.iloc[start:].reset_index(drop=True)`. -/
def PyDf.sliceFrom (df : PyDf) (start : Nat) : PyDf :=
  ⟨df.cols.map (fun c => { c with cells := c.cells.drop start })⟩

/-- Model of `df.columns[i]` (None when out of range). -/
def PyDf.nameAt (df : PyDf) (i : Nat) : Option String := (df.cols.get? i).map PyCol.name

/-- Model of `pd.to_numeric(col, errors=coerce)`: numeric cells are kept and
    anything non-numeric becomes NaN (the numeric-looking strings that
    `to_numeric` would parse were already parsed by `read_csv` and cannot
    appear as `str` cells in this model). -/
def PyDf.coerceNumeric (df : PyDf) (n : String) : PyDf :=
  ⟨df.cols.map (fun c =>
    if c.name == n then
      ⟨c.name, true, c.cells.map (fun v => match v with | .num q => PyVal.num q | _ => PyVal.nan)⟩
    else c)⟩

/-- Labels of the numeric-dtype columns, in order
    (`df.select_dtypes(include=[number]).columns.tolist()`). -/
def PyDf.numericCols (df : PyDf) : List String :=
  (df.cols.filter PyCol.isNum).map PyCol.name

/-- Numeric-field test used by `process_csv_data` (src/utils/data_processor.py
    lines 56 and 81): remove every occurrence of the characters `-`, `.`, `e`,
    `+` and then apply `str.isdigit()`. -/
def procFieldNumeric (col : List Char) : Bool :=
  pyIsdigit (pyReplaceEmpty '+' (pyReplaceEmpty 'e' (pyReplaceEmpty '.' (pyReplaceEmpty '-' col))))

/-- Numeric-field test used by `analyze_csv_file` and
    `apply_cleaning_operations` (src/utils/data_cleaner.py lines 46 and 342):
    only `-` and `.` are removed before `str.isdigit()`. -/
def cleanerFieldNumeric (col : List Char) : Bool :=
  pyIsdigit (pyReplaceEmpty '.' (pyReplaceEmpty '-' col))

/-- Header detection of `process_csv_data`: the first line is split on commas
    and the file has headers unless every field with nonempty `strip()` passes
    `procFieldNumeric`. -/
def has_headers_processor (first_line : String) : Bool :=
  !(((splitChars ',' first_line.toList).filter (fun col => !(pyStrip col).isEmpty)).all
      procFieldNumeric)

/-- Header detection of `analyze_csv_file` and `apply_cleaning_operations`:
    same shape, but fields are stripped only of `-` and `.`. -/
def has_headers_cleaner (first_line : String) : Bool :=
  !(((splitChars ',' first_line.toList).filter (fun col => !(pyStrip col).isEmpty)).all
      cleanerFieldNumeric)

/-- Modelled from the spec (section 4.2 and the C6 claim text): a field
    "parses as a decimal number" when, after stripping the characters `-`,
    `.`, `e`, `+`, what remains is a nonempty run of decimal digits. -/
def specFieldNumeric (col : List Char) : Bool :=
  let stripped := col.filter (fun c => !(c == '-' || c == '.' || c == 'e' || c == '+'))
  !stripped.isEmpty && stripped.all pyIsDigitChar

/-- Modelled from the spec: a first line is classified headerless when every
    comma-separated field that is nonempty after whitespace stripping parses
    as a decimal number in the sense of `specFieldNumeric`. -/
def specHeaderless (first_line : String) : Bool :=
  ((splitChars ',' first_line.toList).filter (fun col => !(pyStrip col).isEmpty)).all
    specFieldNumeric

/-- Fixed encoding priority list of the upload handler (src/app.py line 89). -/
def encodings_to_try : List String := ["utf-8", "latin-1", "cp1252", "iso-8859-1", "utf-16"]

/-- Is `b` a UTF-8 continuation byte? -/
def utf8Cont (b : Nat) : Bool := 128 ≤ b && b ≤ 191

/-- Strict UTF-8 decoder (as Python `bytes.decode("utf-8")`): rejects
    overlong forms, surrogates and out-of-range sequences; returns the list
    of decoded code points. -/
def utf8Decode : List Nat → Option (List Nat)
  | [] => some []
  | b :: rest =>
    if b ≤ 127 then (utf8Decode rest).map (fun t => b :: t)
    else if 194 ≤ b && b ≤ 223 then
      match rest with
      | c :: rest2 =>
        if utf8Cont c then (utf8Decode rest2).map (fun t => ((b - 192) * 64 + (c - 128)) :: t)
        else none
      | [] => none
    else if 224 ≤ b && b ≤ 239 then
      match rest with
      | c :: d2 :: rest3 =>
        let loOk : Bool :=
          if b == 224 then 160 ≤ c && c ≤ 191
          else if b == 237 then 128 ≤ c && c ≤ 159
          else utf8Cont c
        if loOk && utf8Cont d2 then
          (utf8Decode rest3).map (fun t => ((b - 224) * 4096 + (c - 128) * 64 + (d2 - 128)) :: t)
        else none
      | _ => none
    else if 240 ≤ b && b ≤ 244 then
      match rest with
      | c :: d2 :: e2 :: rest4 =>
        let loOk : Bool :=
          if b == 240 then 144 ≤ c && c ≤ 191
          else if b == 244 then 128 ≤ c && c ≤ 143
          else utf8Cont c
        if loOk && utf8Cont d2 && utf8Cont e2 then
          (utf8Decode rest4).map
            (fun t => ((b - 240) * 262144 + (c - 128) * 4096 + (d2 - 128) * 64 + (e2 - 128)) :: t)
        else none
      | _ => none
    else none

/-- Latin-1 decoder: every byte maps to the code point of the same value, so
    decoding succeeds for every byte sequence. -/
def latin1Decode (bs : List Nat) : Option (List Nat) :=
  if bs.all (fun b => b < 256) then some bs else none

/-- Windows-1252 single-byte table for the 0x80-0x9F block; the five holes
    raise `UnicodeDecodeError` in Python and are `none` here. -/
def cp1252Byte (b : Nat) : Option Nat :=
  if b < 128 then some b
  else if 160 ≤ b && b < 256 then some b
  else if b == 128 then some 8364
  else if b == 130 then some 8218
  else if b == 131 then some 402
  else if b == 132 then some 8222
  else if b == 133 then some 8230
  else if b == 134 then some 8224
  else if b == 135 then some 8225
  else if b == 136 then some 710
  else if b == 137 then some 8240
  else if b == 138 then some 352
  else if b == 139 then some 8249
  else if b == 140 then some 338
  else if b == 142 then some 381
  else if b == 145 then some 8216
  else if b == 146 then some 8217
  else if b == 147 then some 8220
  else if b == 148 then some 8221
  else if b == 149 then some 8226
  else if b == 150 then some 8211
  else if b == 151 then some 8212
  else if b == 152 then some 732
  else if b == 153 then some 8482
  else if b == 154 then some 353
  else if b == 155 then some 8250
  else if b == 156 then some 339
  else if b == 158 then some 382
  else if b == 159 then some 376
  else none

/-- Windows-1252 decoder. -/
def cp1252Decode (bs : List Nat) : Option (List Nat) := bs.mapM cp1252Byte

/-- Collect a UTF-16 byte stream into 16-bit units with the given
    endianness (`le = true` for little-endian); odd length fails. -/
def utf16Units (le : Bool) : List Nat → Option (List Nat)
  | [] => some []
  | [_] => none
  | a :: b :: rest =>
    let w := if le then a + 256 * b else 256 * a + b
    (utf16Units le rest).map (fun t => w :: t)

/-- Combine UTF-16 units, pairing surrogates; lone surrogates fail. -/
def utf16Combine : List Nat → Option (List Nat)
  | [] => some []
  | w :: ws =>
    if 55296 ≤ w && w ≤ 56319 then
      match ws with
      | w2 :: ws2 =>
        if 56320 ≤ w2 && w2 ≤ 57343 then
          (utf16Combine ws2).map (fun t => (65536 + (w - 55296) * 1024 + (w2 - 56320)) :: t)
        else none
      | [] => none
    else if 56320 ≤ w && w ≤ 57343 then none
    else (utf16Combine ws).map (fun t => w :: t)

/-- Python `utf-16` decoder: honours a BOM, defaulting to little-endian. -/
def utf16Decode (bs : List Nat) : Option (List Nat) :=
  match bs with
  | 255 :: 254 :: rest => (utf16Units true rest).bind utf16Combine
  | 254 :: 255 :: rest => (utf16Units false rest).bind utf16Combine
  | _ => (utf16Units true bs).bind utf16Combine

/-- Decode a byte buffer with one of the five codecs of `encodings_to_try`. -/
def decodeWith (enc : String) (bs : List Nat) : Option (List Nat) :=
  if enc == "utf-8" then utf8Decode bs
  else if enc == "latin-1" then latin1Decode bs
  else if enc == "cp1252" then cp1252Decode bs
  else if enc == "iso-8859-1" then latin1Decode bs
  else if enc == "utf-16" then utf16Decode bs
  else none

/-- The encoding-detection loop of the upload handler (src/app.py lines
    87-104): try each codec on the initial chunk in priority order and keep
    the first that decodes; the flag records `encoding_found`. -/
def resolveEncoding (bs : List Nat) : String × Bool :=
  match encodings_to_try.find? (fun enc => (decodeWith enc bs).isSome) with
  | some enc => (enc, true)
  | none => ("utf-8", false)

/-- Text later produced for the file: the buffer decoded with the detected
    encoding. -/
def resolvedText (bs : List Nat) : Option (List Nat) := decodeWith (resolveEncoding bs).1 bs

/-- An insertion-ordered rename dict mapping original column names to the
    standard role names. -/
abbrev ColMap := List (String × String)

/-- Alias lists of `detect_position_columns` (src/utils/data_processor.py
    lines 378-385), in dict order. -/
def position_patterns : List (String × List String) :=
  [("position_n",
    ["n", "north", "x", "pos_n", "position_north", "pos_north", "position_x", "pos_x",
     "posx", "nx", "northx", "latitude", "lat", "posn", "position n"]),
   ("position_e",
    ["e", "east", "y", "pos_e", "position_east", "pos_east", "position_y", "pos_y",
     "posy", "ey", "easty", "longitude", "lon", "long", "pose", "position e"]),
   ("position_d",
    ["d", "down", "z", "alt", "altitude", "pos_d", "position_down", "pos_down", "position_z",
     "pos_z", "posz", "dz", "downz", "height", "elev", "elevation", "depth", "posd", "position d"])]

/-- Timestamp scan of `detect_position_columns` (line 392): is `sec` or
    `nanosec` a substring of the concatenation of the lower-cased column
    names? -/
def detect_has_timestamps (df : PyDf) : Bool :=
  let joined := (df.names.map strLower).foldl (fun a s => a ++ s) ""
  ["sec", "nanosec"].any (fun ts => strContains joined ts)

/-- ROS2-structure flag (lines 393-398): timestamps present, or one of the
    first two column names contains the literal `1741`. -/
def detect_has_ros_structure (df : PyDf) : Bool :=
  detect_has_timestamps df ||
    (2 ≤ df.cols.length && (df.names.take 2).any (fun c => strContains c "1741"))

/-- Candidate index triples probed by the ROS2 heuristic, in priority order
    (lines 417-424). -/
def ros_candidate_sets : List (List Nat) := [[3, 4, 5], [5, 6, 7], [0, 1, 2]]

/-- Mean of a nonempty list of rationals. -/
def listMeanQ (vals : List Q) : Q := (listSumQ vals).div (Q.ofN vals.length)

/-- Probe one candidate index triple (lines 426-452): all three indices must
    exist, name numeric columns, and hold values strictly inside
    `(-100000, 100000)`; on success the rename dict maps them to the three
    roles in order. -/
def rosTripleMapping (df : PyDf) (idxs : List Nat) : Option ColMap :=
  if idxs.all (fun i => i < df.cols.length) then
    match idxs.filterMap df.nameAt with
    | [c0, c1, c2] =>
      if [c0, c1, c2].all (fun c => df.numericCols.contains c) then
        let rangeOk := [c0, c1, c2].all (fun c =>
          let mn := listMinQQ (df.colQQ c)
          let mx := listMaxQQ (df.colQQ c)
          qqLtB (some (Q.ofInt (-100000))) mn && qqLtB mn (some (Q.ofInt 100000)) &&
            qqLtB (some (Q.ofInt (-100000))) mx && qqLtB mx (some (Q.ofInt 100000)))
        if rangeOk then
          some (insertKV (insertKV (insertKV [] c0 "position_n") c1 "position_e") c2 "position_d")
        else none
      else none
    | _ => none
  else none

/-- The ROS2 candidate loop: first triple that passes wins. -/
def rosScan (df : PyDf) : Option ColMap := ros_candidate_sets.findSome? (rosTripleMapping df)

/-- Inner alias scan (lines 461-478): for each alias in order, first try
    case-insensitive exact matches over the columns, then bidirectional
    case-insensitive substring matches; the first hit wins. -/
def patternScan (names : List String) : List String → Option String
  | [] => none
  | p :: ps =>
    match names.find? (fun c => strLower c == strLower p) with
    | some c => some c
    | none =>
      match names.find? (fun c =>
          strContains (strLower c) (strLower p) || strContains (strLower p) (strLower c)) with
      | some c => some c
      | none => patternScan names ps

/-- Name-pattern matching pass (lines 454-478): roles whose standard name is
    already a column are skipped; each matched column is recorded in the
    rename dict. -/
def nameMatchFold (df : PyDf) : ColMap :=
  position_patterns.foldl
    (fun result pr =>
      if df.hasCol pr.1 then result
      else
        match patternScan df.names pr.2 with
        | some c => insertKV result c pr.1
        | none => result)
    []

/-- Minimum of a nonempty list of rationals (callers guard nonemptiness). -/
def listMinQ (vals : List Q) : Q :=
  vals.foldl (fun a b => if Q.ltB b a then b else a) (vals.headD Q.zero)

/-- Maximum of a nonempty list of rationals. -/
def listMaxQ (vals : List Q) : Q :=
  vals.foldl (fun a b => if Q.ltB a b then b else a) (vals.headD Q.zero)

/-- Value-shape classification of the scientific-notation heuristic (lines
    503-521): 1 = East candidate (name contains `e-`), 2 = Down candidate
    (mean in `(-10, -0.01)`), 3 = North candidate (mean in `(0.001, 10)` and
    min above `-1`), 0 = not a candidate. -/
def sciClass (df : PyDf) (col : String) : Nat :=
  let vals := df.colDropna col
  if vals.isEmpty then 0
  else
    let mn := listMinQ vals
    let mean := listMeanQ vals
    if strContains col "e-" then 1
    else if Q.ltB mean Q.zero && Q.ltB (Q.ofInt (-10)) mean && Q.ltB mean (Q.mk2 (-1) 100) then 2
    else if Q.ltB (Q.mk2 1 1000) mean && Q.ltB mean (Q.ofInt 10) && Q.ltB (Q.ofInt (-1)) mn then 3
    else 0

/-- Scientific-notation heuristic (lines 487-540): fires when at least three
    column names contain `e-` or `e+`; uses the shape classes when all three
    roles have candidates and otherwise falls back to the first three
    scientific columns in order. -/
def sciMapping (df : PyDf) : Option ColMap :=
  let sci := df.names.filter (fun c => strContains c "e-" || strContains c "e+")
  if !sci.isEmpty && 3 ≤ sci.length then
    let ncs := df.numericCols
    let nC := ncs.filter (fun c => sciClass df c == 3)
    let eC := ncs.filter (fun c => sciClass df c == 1)
    let dC := ncs.filter (fun c => sciClass df c == 2)
    match nC, eC, dC with
    | n0 :: _, e0 :: _, d0 :: _ =>
      some (insertKV (insertKV (insertKV [] n0 "position_n") e0 "position_e") d0 "position_d")
    | _, _, _ =>
      match sci with
      | s0 :: s1 :: s2 :: _ =>
        some (insertKV (insertKV (insertKV [] s0 "position_n") s1 "position_e") s2 "position_d")
      | _ => none
  else none

/-- Sample standard deviation (pandas `std()`, `ddof=1`), via the model
    square root; only its sign and relative order are consumed. -/
def sampleStd (vals : List Q) : Q :=
  let mean := listMeanQ vals
  Q.sqrtQ ((listSumQ (vals.map (fun v => (v.sub mean).mul (v.sub mean)))).div (Q.ofN (vals.length - 1)))

/-- One candidate row of the statistical-inference pass (lines 550-576):
    `(name, std, mean)` for columns with data, positive spread and values
    inside `(-1000000, 1000000)`. -/
def statCandidate (df : PyDf) (col : String) : Option (String × Q × Q) :=
  let vals := df.colDropna col
  if vals.isEmpty then none
  else
    let mn := listMinQ vals
    let mx := listMaxQ vals
    let mean := listMeanQ vals
    let std := if 1 < vals.length then sampleStd vals else Q.zero
    if Q.ltB Q.zero std && Q.ltB (Q.ofInt (-1000000)) mn && Q.ltB mn (Q.ofInt 1000000) &&
        Q.ltB (Q.ofInt (-1000000)) mx && Q.ltB mx (Q.ofInt 1000000) && !(decide (mn = mx)) then
      some (col, std, mean)
    else none

/-- Stable descending insertion by the `std` component, modelling Python
    `list.sort(key=..., reverse=True)`. -/
def insertByStdDesc (x : String × Q × Q) : List (String × Q × Q) → List (String × Q × Q)
  | [] => [x]
  | y :: ys => if Q.leB y.2.1 x.2.1 then x :: y :: ys else y :: insertByStdDesc x ys

/-- Stable sort, descending by `std`. -/
def sortByStdDesc (l : List (String × Q × Q)) : List (String × Q × Q) :=
  l.foldr insertByStdDesc []

/-- Statistical inference pass (lines 544-589): rank surviving numeric
    columns by descending standard deviation and take the top three. -/
def statMapping (df : PyDf) : Option ColMap :=
  let numeric := df.numericCols
  if 3 ≤ numeric.length then
    let cands := sortByStdDesc (numeric.filterMap (statCandidate df))
    match cands with
    | c0 :: c1 :: c2 :: _ =>
      some (insertKV (insertKV (insertKV [] c0.1 "position_n") c1.1 "position_e") c2.1 "position_d")
    | _ => none
  else none

/-- Fixed-index ROS fallback (lines 591-603): with ROS structure and at
    least six columns, map columns 3, 4, 5 when they are numeric. -/
def rosFixedMapping (df : PyDf) : Option ColMap :=
  if detect_has_ros_structure df && 6 ≤ df.cols.length then
    match [3, 4, 5].filterMap df.nameAt with
    | [c0, c1, c2] =>
      if [c0, c1, c2].all (fun c => df.numericCols.contains c) then
        some (insertKV (insertKV (insertKV [] c0 "position_n") c1 "position_e") c2 "position_d")
      else none
    | _ => none
  else none

/-- Last-resort numeric fallback (lines 605-612): the first three numeric
    columns in table order. -/
def firstThreeNumericMapping (df : PyDf) : Option ColMap :=
  match df.numericCols with
  | c0 :: c1 :: c2 :: _ =>
    some (insertKV (insertKV (insertKV [] c0 "position_n") c1 "position_e") c2 "position_d")
  | _ => none

/-- X/Y/Z name fallback (lines 614-627): extend the partial name-match dict
    with columns literally named `x`/`col0`/`0`, `y`/`col1`/`1`,
    `z`/`col2`/`2` for roles not yet present among its values. -/
def xyzAugment (df : PyDf) (result : ColMap) : ColMap :=
  let xs := df.names.filter (fun c => ["x", "col0", "0"].contains (strLower c))
  let ys := df.names.filter (fun c => ["y", "col1", "1"].contains (strLower c))
  let zs := df.names.filter (fun c => ["z", "col2", "2"].contains (strLower c))
  let r1 :=
    match xs with
    | x0 :: _ => if !(result.map Prod.snd).contains "position_n" then insertKV result x0 "position_n" else result
    | [] => result
  let r2 :=
    match ys with
    | y0 :: _ => if !(r1.map Prod.snd).contains "position_e" then insertKV r1 y0 "position_e" else r1
    | [] => r1
  match zs with
  | z0 :: _ => if !(r2.map Prod.snd).contains "position_d" then insertKV r2 z0 "position_d" else r2
  | [] => r2

/-- The full `detect_position_columns` (src/utils/data_processor.py lines
    367-635): ROS2 structural probe first, then name patterns, then the
    scientific-notation heuristic, statistical inference, the fixed-index ROS
    fallback, the first-three-numeric fallback and the X/Y/Z fallback;
    `none` models the Python `None` return. -/
def detect_position_columns (df : PyDf) : Option ColMap :=
  let rosRes :=
    if detect_has_ros_structure df && 6 ≤ df.cols.length then rosScan df else none
  match rosRes with
  | some m => some m
  | none =>
    let result := nameMatchFold df
    if result.length == 3 then some result
    else
      match sciMapping df with
      | some m => some m
      | none =>
        match statMapping df with
        | some m => some m
        | none =>
          match rosFixedMapping df with
          | some m => some m
          | none =>
            match firstThreeNumericMapping df with
            | some m => some m
            | none =>
              let result2 := if result.length < 3 then xyzAugment df result else result
              if result2.length == 3 then some result2 else none

/-- One visualization point, in the order the Python dict is built: the three
    raw positions, normalized time, then orientation, body velocity and
    pass-through fields as labelled values. -/
structure VPoint where
  pn : QQ
  pe : QQ
  pd : QQ
  time : QQ
  rest : List (String × QQ)
deriving DecidableEq, Repr

/-- Metadata of the returned result (src/utils/data_processor.py lines
    346-356). -/
structure ProcMeta where
  points_count : Nat
  original_count : Nat
  altitude_range : QQ × QQ
  distance : QQ
  duration : QQ
  sampling_factor : Nat
deriving DecidableEq, Repr

/-- The structured dict returned by `process_csv_data`: either the data and
    metadata payload or an `error` plus `message` pair. -/
inductive PResult where
  | ok (data : List VPoint) (meta : ProcMeta)
  | err (error : String) (message : String)
deriving DecidableEq, Repr

/-- The three required role names. -/
def required_columns : List String := ["position_n", "position_e", "position_d"]

/-- Inline ROS2 fallback of `process_csv_data` (lines 170-209), tried when
    `detect_position_columns` fails: if the first column name is a digit
    string of length at least 10 and there are at least six columns, coerce
    columns 3, 4, 5 to numeric and rename them onto the three roles. -/
def ros_inline_cond (df0 : PyDf) : Bool :=
  (2 ≤ df0.cols.length &&
    (match df0.nameAt 0 with
     | some c => pyIsdigit c.toList && 10 ≤ c.toList.length
     | none => false)) &&
  6 ≤ df0.cols.length

/-- The coercion and rename performed by the inline ROS2 fallback when its
    guard holds. -/
def ros_inline_fallback (df0 : PyDf) : Option PyDf :=
  if ros_inline_cond df0 then
    match [3, 4, 5].filterMap df0.nameAt with
    | [c3, c4, c5] =>
      let dfc := ((df0.coerceNumeric c3).coerceNumeric c4).coerceNumeric c5
      some (dfc.renameCols
        (insertKV (insertKV (insertKV [] c3 "position_n") c4 "position_e") c5 "position_d"))
    | _ => none
  else none

/-- Assembled resolution prologue; the `none` outcomes of the fallback are
    the two `return {error, message}` dicts of lines 206-214, which carry the
    same `error` field. -/
def resolvePositions (df0 : PyDf) : Except (String × String) PyDf :=
  if required_columns.all df0.hasCol then .ok df0
  else
    match detect_position_columns df0 with
    | some m => .ok (df0.renameCols m)
    | none =>
      match ros_inline_fallback df0 with
      | some df => .ok df
      | none =>
        .error ("Missing required position columns",
          "Could not find position_n, position_e, position_d columns or alternatives")

/-- Per-row time `df.sec + df.nanosec / 1e9` (line 234). -/
def timeCellsOf (df : PyDf) : List QQ :=
  ((df.colQQ "sec").zip (df.colQQ "nanosec")).map
    (fun p => qqAdd p.1 (qqDivC p.2 (Q.ofInt 1000000000)))

/-- The altitude exaggeration factor 1.8 (line 256). -/
def altitude_scale : Q := Q.mk2 9 5

/-- Position columns and auxiliary names consumed before the pass-through
    loop (lines 327-329). -/
def consumedCols : List String :=
  ["position_n", "position_e", "position_d", "sec", "nanosec", "time", "normalized_time",
   "phi", "theta", "psi", "u", "v", "w"]

/-- The scaled visualization position of one row: `(x, y, z)` with
    `z = -down * 1.8` (lines 278-282). -/
abbrev Pos3 := QQ × QQ × QQ

/-- Segment length between consecutive sampled points (lines 285-289),
    including the faithful translation of line 288, whose Python operator
    precedence divides only the previous z by the scale:
    `dz = position.z - previous_position.z / altitude_scale`. -/
def segDistance (pos prev : Pos3) : QQ :=
  let dx := qqSub pos.1 prev.1
  let dy := qqSub pos.2.1 prev.2.1
  let dz := qqSub pos.2.2 (qqDivC prev.2.2 altitude_scale)
  qqSqrt (qqAdd (qqAdd (qqMul dx dx) (qqMul dy dy)) (qqMul dz dz))

/-- Collect `float()` values of the optional orientation or body-velocity
    columns that exist in the frame (lines 294-304). -/
def optColFold (df : PyDf) (i : Nat) (names : List String) :
    Except String (List (String × QQ)) :=
  names.foldlM
    (fun (acc : List (String × QQ)) a =>
      if df.hasCol a then do
        let v ← pyFloat (df.cellAt a i)
        pure (acc ++ [(a, v)])
      else pure acc) []

/-- Build the point for row `i` (lines 276-337): `float()` casts of the
    three positions, the optional orientation and body-velocity columns, the
    normalized time, and the pass-through of every remaining column whose
    cell converts (per-field `try`); also returns the scaled position used
    for the running distance. -/
def stepFn (df : PyDf) (i : Nat) : Except String (VPoint × Pos3) := do
  let pnv ← pyFloat (df.cellAt "position_n" i)
  let pev ← pyFloat (df.cellAt "position_e" i)
  let pdv ← pyFloat (df.cellAt "position_d" i)
  let pos : Pos3 := (pnv, pev, qqMul (qqNeg pdv) (some altitude_scale))
  let orient ← optColFold df i ["phi", "theta", "psi"]
  let vel ← optColFold df i ["u", "v", "w"]
  let tv ← pyFloat (df.cellAt "normalized_time" i)
  let extras := df.names.foldl
    (fun (acc : List (String × QQ)) c =>
      if consumedCols.contains c then acc
      else
        match pyFloat (df.cellAt c i) with
        | .ok v => acc ++ [(c, v)]
        | .error _ => acc) []
  pure ({ pn := pnv, pe := pev, pd := pdv, time := tv, rest := orient ++ vel ++ extras }, pos)

/-- The sampling loop (lines 270-337): visit the rows in order, build each
    point and accumulate the running distance from the second sampled point
    on. -/
def trajLoop (df : PyDf) : List Nat → Option Pos3 → QQ → Except String (List VPoint × QQ)
  | [], _, dist => .ok ([], dist)
  | i :: rest, prev, dist => do
    let (pt, pos) ← stepFn df i
    let dist2 :=
      match prev with
      | some p => qqAdd dist (segDistance pos p)
      | none => dist
    let (pts, dfin) ← trajLoop df rest (some pos) dist2
    pure (pt :: pts, dfin)

/-- Model of `range(0, n, f)` for a positive step `f`: the multiples of `f`
    below `n`, in increasing order. -/
def sampleIdx (n f : Nat) : List Nat := (List.range n).filter (fun i => i % f == 0)

/-- Time stage of `process_csv_data` (lines 216-246): with `sec` and
    `nanosec` columns resolved, build the per-row time, normalize it by the
    column minimum into `normalized_time`, and perform the
    `len(df) / duration` sampling-rate division of line 240, which raises
    `ZeroDivisionError` when the duration is zero; without timestamps,
    `normalized_time` is the row index over an assumed 10 Hz. -/
def timeStage (df : PyDf) : Except String (PyDf × QQ) :=
  if df.hasCol "sec" && df.hasCol "nanosec" then do
    let tc := timeCellsOf df
    let mn := listMinQQ tc
    let mx := listMaxQQ tc
    let dur := qqSub mx mn
    let _ ←
      if 1 < df.nrows then pyDiv (Q.ofN df.nrows) dur
      else pure (none : QQ)
    pure ((df.setNumCol "time" tc).setNumCol "normalized_time" (tc.map (fun t => qqSub t mn)),
      dur)
  else
    pure
      ((df.setNumCol "normalized_time"
          ((List.range df.nrows).map (fun i => some (Q.mk2 (Int.ofNat i) 10))),
        (some Q.zero : QQ)))

/-- Sampling factor (lines 260-268): an explicit rate above one is used as
    is, otherwise `max(1, row_count // 1000)`. -/
def samplingFactor (sample_rate rows : Nat) : Nat :=
  if 1 < sample_rate then sample_rate else max 1 (rows / 1000)

/-- Altitude range metadata (lines 248-253): `[-max(down), -min(down)]`. -/
def altRangeOf (df2 : PyDf) : QQ × QQ :=
  if df2.hasCol "position_d" then
    (qqNeg (listMaxQQ (df2.colQQ "position_d")), qqNeg (listMinQQ (df2.colQQ "position_d")))
  else (some Q.zero, some Q.zero)

/-- Body of `process_csv_data` after parsing (lines 160-358), in the
    exception monad; a `.ok (.err e m)` models the two in-line
    `return {error, message}` dicts, while `.error` models a raised
    exception. -/
def process_body (df0 : PyDf) (sample_rate : Nat) : Except String PResult := do
  match resolvePositions df0 with
  | .error em => pure (.err em.1 em.2)
  | .ok df =>
    let tdat ← timeStage df
    let f := samplingFactor sample_rate tdat.1.nrows
    let res ← trajLoop tdat.1 (sampleIdx tdat.1.nrows f) none (some Q.zero)
    pure (.ok res.1
      { points_count := res.1.length
        original_count := df.nrows
        altitude_range := altRangeOf tdat.1
        distance := res.2
        duration := tdat.2
        sampling_factor := f })

/-- The outermost `process_csv_data` boundary (lines 31 and 360-365): every
    raised exception is caught and turned into the structured
    `{error: Processing error, message}` dict. -/
def process_csv_data_model (df0 : PyDf) (sample_rate : Nat) : PResult :=
  match process_body df0 sample_rate with
  | .ok r => r
  | .error m => .err "Processing error" m

/-- Trajectory metrics consumed by the cleaner, with per-key presence
    (`'key' in metrics`) modelled by `Option`. -/
structure TrajMetricsInfo where
  total_distance : Option Q
  avg_speed : Option Q
  altitude_change : Option Q
deriving DecidableEq, Repr

/-- The `file_info` dict handed to `apply_cleaning_operations`. -/
structure FileInfo where
  filename : String
  content : String
  row_count : Option Int
  file_size_mb : Option Q
  file_size_bytes : Option Q
  trajectory_metrics : Option TrajMetricsInfo
deriving DecidableEq, Repr

/-- Per-operation configs; every parameter is optional, with the Python
    `.get(key, default)` defaults applied at the use site. -/
structure FileSizeCfg where
  enabled : Bool
  min_size_mb : Option Q
deriving DecidableEq, Repr

/-- Header-standardization config. -/
structure HeaderCfg where
  enabled : Bool
  standard_headers : Option (List String)
deriving DecidableEq, Repr

/-- Static-flight-detection config. -/
structure StaticFlightCfg where
  enabled : Bool
  distance_threshold : Option Q
deriving DecidableEq, Repr

/-- Trim-static-start config. -/
structure TrimCfg where
  enabled : Bool
  window_size : Option Nat
  speed_threshold : Option Q
  position_threshold : Option Q
deriving DecidableEq, Repr

/-- Remove-static-samples config. -/
structure RemoveStaticCfg where
  enabled : Bool
  speed_threshold : Option Q
deriving DecidableEq, Repr

/-- Quaternion-column-removal config. -/
structure QuatCfg where
  enabled : Bool
  columns : Option (List String)
deriving DecidableEq, Repr

/-- Anomaly-detection config. -/
structure AnomalyCfg where
  enabled : Bool
  std_threshold : Option Q
  metrics : Option (List String)
  flag_only : Option Bool
deriving DecidableEq, Repr

/-- File-resequencing config (its `base_filename` parameter never affects
    the cleaning result, so it is not modelled). -/
structure ReseqCfg where
  enabled : Bool
deriving DecidableEq, Repr

/-- The full `config` dict. -/
structure CleanConfig where
  file_size_filtering : FileSizeCfg
  header_management : HeaderCfg
  static_flight_detection : StaticFlightCfg
  trim_static_start : TrimCfg
  remove_static_samples : RemoveStaticCfg
  remove_quaternion_columns : QuatCfg
  anomaly_detection : AnomalyCfg
  file_resequencing : ReseqCfg
deriving DecidableEq, Repr

/-- An all-disabled configuration, used as a base for concrete witnesses. -/
def cfg0 : CleanConfig :=
  { file_size_filtering := { enabled := false, min_size_mb := none }
    header_management := { enabled := false, standard_headers := none }
    static_flight_detection := { enabled := false, distance_threshold := none }
    trim_static_start :=
      { enabled := false, window_size := none, speed_threshold := none, position_threshold := none }
    remove_static_samples := { enabled := false, speed_threshold := none }
    remove_quaternion_columns := { enabled := false, columns := none }
    anomaly_detection :=
      { enabled := false, std_threshold := none, metrics := none, flag_only := none }
    file_resequencing := { enabled := false } }

/-- One detected anomaly (metric name, value and threshold; the formatted
    `reason` string is a rendering of these fields and is not modelled). -/
structure AnomalyEntry where
  metric : String
  value : Q
  threshold : Q
deriving DecidableEq, Repr

/-- One `cleaning_results` entry.  Formatted reason strings and the derived
    percentage fields of the Python dicts are renderings of the recorded
    numbers and are not modelled separately. -/
inductive RVal where
  | fileSizeSkip (file_size_mb min_size_mb : Q)
  | headerMgmt (headers_before headers_after missing_added : List String)
      (renamed : List (String × String))
  | staticFlight (action : String) (total_distance : Q)
  | trimStatic (rows_removed start_index : Nat)
  | removeStatic (rows_removed : Nat) (threshold : Q) (computed : Bool)
  | removeQuat (columns_removed : List String)
  | anomaly (anomalies : List AnomalyEntry) (action : String)
  | reseq (original_filename : String)
deriving DecidableEq, Repr

/-- The `cleaned_stats` block (serialized byte sizes and percentages are
    renderings of these counts and are not modelled). -/
structure CleanedStats where
  row_count : Nat
  row_reduction : Int
  note : Option String
deriving DecidableEq, Repr

/-- The result dict of `apply_cleaning_operations`; `finalDf` is the
    DataFrame at return time (the source serializes it to `cleaned_content`
    when it is nonempty).  The code never sets a `message` key; the field is
    kept to state the C8 claim. -/
structure CResult where
  filename : String
  original_row_count : Int
  operations_applied : List String
  cleaning_results : List (String × RVal)
  error : Option String
  message : Option String
  cleaned_stats : Option CleanedStats
  finalDf : PyDf
deriving DecidableEq, Repr

/-- Default standard header list (src/utils/data_cleaner.py lines 422-426). -/
def default_standard_headers : List String :=
  ["sec", "nanosec", "frame_id", "position_n", "position_e", "position_d",
   "va", "alpha", "beta", "phi", "theta", "psi", "chi", "u", "v", "w", "p", "q", "r",
   "vg", "wn", "we", "chi_deg", "psi_deg", "initial_lat", "initial_long", "initial_alt"]

/-- Default quaternion column list (lines 617-619). -/
def default_quat_columns : List String :=
  ["Quat_1", "Quat_2", "Quat_3", "Quat_4", "quat_valid"]

/-- Positional header mapping (lines 435-438): the i-th current header maps
    to the i-th standard header, with Python dict overwrite semantics. -/
def buildHeaderMapping (current std : List String) : List (String × String) :=
  (current.zip (List.range current.length)).foldl
    (fun m p =>
      match std.get? p.2 with
      | some s => insertKV m p.1 s
      | none => m)
    []

/-- Operation 2.2, header management (lines 420-454). -/
def header_management_step (cfg : CleanConfig) (df : PyDf) :
    PyDf × List String × List (String × RVal) :=
  if cfg.header_management.enabled then
    let std := cfg.header_management.standard_headers.getD default_standard_headers
    let current := df.names
    let missing := std.filter (fun h => !current.contains h)
    let extra := current.filter (fun h => !std.contains h)
    if !missing.isEmpty || !extra.isEmpty then
      let mapping := buildHeaderMapping current std
      let df1 := df.renameCols mapping
      let df2 := missing.foldl
        (fun d h => if d.hasCol h then d else d.setNumCol h (List.replicate d.nrows none)) df1
      (df2, ["header_management"],
        [("header_management", .headerMgmt current df2.names missing mapping)])
    else (df, [], [])
  else (df, [], [])

/-- Operation 2.3, static-flight detection (lines 456-477): the `removed`
    branch empties the frame and appends to `operations_applied`; the `kept`
    branch records a result entry only. -/
def static_flight_step (cfg : CleanConfig) (fi : FileInfo) (df : PyDf) :
    PyDf × List String × List (String × RVal) :=
  if cfg.static_flight_detection.enabled then
    match fi.trajectory_metrics with
    | some tm =>
      match tm.total_distance with
      | some td =>
        let thr := cfg.static_flight_detection.distance_threshold.getD (Q.ofInt 10)
        if Q.ltB td thr then
          (⟨[]⟩, ["static_flight_detection"],
            [("static_flight_detection", .staticFlight "removed" td)])
        else (df, [], [("static_flight_detection", .staticFlight "kept" td)])
      | none => (df, [], [])
    | none => (df, [], [])
  else (df, [], [])

/-- Does `math.sqrt s` exceed `thr`?  Exactly equivalent, for the nonnegative
    arguments produced by sums of squares, to comparing `s` with `thr * thr`
    (and always true for a negative threshold), so no square root value is
    needed; NaN compares false. -/
def sqrtGtQQ (s : QQ) (thr : Q) : Bool :=
  match s with
  | none => false
  | some v => if Q.ltB thr Q.zero then true else Q.ltB (thr.mul thr) v

/-- Squared 3D spread of the window rows `[i, i+w)` over the position
    columns (lines 497-505 and 526-532); `useNp` selects the NaN-propagating
    numpy max/min of the large path over the NaN-skipping pandas one. -/
def windowSpreadSq (df : PyDf) (i w : Nat) (useNp : Bool) : QQ :=
  let winOf := fun (n : String) => ((df.colQQ n).drop i).take w
  let rangeOf := fun (cells : List QQ) =>
    if useNp && cells.any (fun c => c.isNone) then none
    else qqSub (listMaxQQ cells) (listMinQQ cells)
  let dn := rangeOf (winOf "position_n")
  let de := rangeOf (winOf "position_e")
  let dd := rangeOf (winOf "position_d")
  qqAdd (qqAdd (qqMul dn dn) (qqMul de de)) (qqMul dd dd)

/-- Model of `range(a, b)`. -/
def rangeFromTo (a b : Nat) : List Nat := (List.range (b - a)).map (fun k => a + k)

/-- Small-file scan of trim-static-start (lines 524-536): first window whose
    spread exceeds the threshold; `0` when none does. -/
def trim_small_scan (df : PyDf) (w : Nat) (thr : Q) : Nat :=
  match (List.range (df.nrows - w)).find? (fun i => sqrtGtQQ (windowSpreadSq df i w false) thr) with
  | some i => i
  | none => 0

/-- Large-file scan (lines 490-522): stride-sampled outer scan, then a local
    refinement over the stride interval; when the refinement finds nothing
    the start index stays `0`. -/
def trim_large_scan (df : PyDf) (w sr : Nat) (thr : Q) : Nat :=
  match ((List.range (df.nrows - w)).filter (fun i => i % sr == 0)).find?
      (fun i => sqrtGtQQ (windowSpreadSq df i w true) thr) with
  | some i =>
    match (rangeFromTo i (min (i + sr) (df.nrows - w))).find?
        (fun j => sqrtGtQQ (windowSpreadSq df j w true) thr) with
    | some j => j
    | none => 0
  | none => 0

/-- The start index trim-static-start chooses (lines 488-536): the
    stride-sampled large-file path above 5000 rows, the dense scan
    otherwise. -/
def trim_start_of (df : PyDf) (w : Nat) (thr : Q) : Nat :=
  if 5000 < df.nrows then trim_large_scan df w (max 1 (df.nrows / 200)) thr
  else trim_small_scan df w thr

/-- Operation 2.4, trim static start (lines 479-548).  Its `speed_threshold`
    parameter is read by the source but never used. -/
def trim_static_start_step (cfg : CleanConfig) (df : PyDf) :
    PyDf × List String × List (String × RVal) :=
  if cfg.trim_static_start.enabled && !df.isEmptyDf then
    let w := cfg.trim_static_start.window_size.getD 50
    let thr := cfg.trim_static_start.position_threshold.getD (Q.mk2 1 2)
    if required_columns.all df.hasCol then
      let start := trim_start_of df w thr
      if 0 < start then
        (df.sliceFrom start, ["trim_static_start"],
          [("trim_static_start", .trimStatic start start)])
      else (df, [], [])
    else (df, [], [])
  else (df, [], [])

/-- Velocity of the segment from row `prev` to row `idx` (lines 590-601):
    the norm of the position delta divided by the index gap; a `float()`
    failure inside the per-segment `try` makes the segment velocity `0.0`. -/
def segVelocity (df : PyDf) (prev idx : Nat) : QQ :=
  match pyFloat (df.cellAt "position_n" prev), pyFloat (df.cellAt "position_e" prev),
      pyFloat (df.cellAt "position_d" prev), pyFloat (df.cellAt "position_n" idx),
      pyFloat (df.cellAt "position_e" idx), pyFloat (df.cellAt "position_d" idx) with
  | .ok n1, .ok e1, .ok d1, .ok n2, .ok e2, .ok d2 =>
    let dx := qqSub n2 n1
    let dy := qqSub e2 e1
    let dz := qqSub d2 d1
    let dist := qqSqrt (qqAdd (qqAdd (qqMul dx dx) (qqMul dy dy)) (qqMul dz dz))
    if idx ≠ prev then qqDivC dist (Q.ofN (idx - prev)) else some Q.zero
  | _, _, _, _, _, _ => some Q.zero

/-- Model of `df.loc[a:b, col] = v` on a RangeIndex: label slicing is
    inclusive at both ends. -/
def assignRange (vels : List QQ) (a b : Nat) (v : QQ) : List QQ :=
  vels.mapIdx (fun i old => if a ≤ i ∧ i ≤ b then v else old)

/-- The computed-velocity column (lines 569-601): initialize to `0.0`,
    stride-sample the row indices (always including the last row), and
    assign each segment velocity to the inclusive index slice it spans. -/
def calcVelocities (df : PyDf) (sr : Nat) : List QQ :=
  let n := df.nrows
  let base := (List.range n).filter (fun i => i % sr == 0)
  let inds := if base.getLast? == some (n - 1) then base else base ++ [n - 1]
  (inds.zip inds.tail).foldl
    (fun vels pr => assignRange vels pr.1 pr.2 (segVelocity df pr.1 pr.2))
    (List.replicate n (some Q.zero))

/-- Operation 2.5, remove static samples (lines 550-613): filter on an
    existing `velocity` column, or on a velocity computed from consecutive
    sampled positions when absent (which leaves the computed column in the
    frame). -/
def remove_static_samples_step (cfg : CleanConfig) (df : PyDf) :
    PyDf × List String × List (String × RVal) :=
  if cfg.remove_static_samples.enabled && !df.isEmptyDf then
    let thr := cfg.remove_static_samples.speed_threshold.getD Q.zero
    if df.hasCol "velocity" then
      let mask := (df.colQQ "velocity").map (fun v => qqGtB v (some thr))
      let df2 := df.filterRows mask
      (df2, ["remove_static_samples"],
        [("remove_static_samples", .removeStatic (df.nrows - df2.nrows) thr false)])
    else
      if required_columns.all df.hasCol then
        let sr := max 1 (df.nrows / 1000)
        let vels := calcVelocities df sr
        let dfv := df.setNumCol "calculated_velocity" vels
        let mask := vels.map (fun v => qqGtB v (some thr))
        let df2 := dfv.filterRows mask
        (df2, ["remove_static_samples"],
          [("remove_static_samples", .removeStatic (dfv.nrows - df2.nrows) thr true)])
      else (df, [], [])
  else (df, [], [])

/-- Operation 2.6, remove quaternion columns (lines 615-631). -/
def remove_quaternion_step (cfg : CleanConfig) (df : PyDf) :
    PyDf × List String × List (String × RVal) :=
  if cfg.remove_quaternion_columns.enabled && !df.isEmptyDf then
    let toRemove :=
      (cfg.remove_quaternion_columns.columns.getD default_quat_columns).filter df.hasCol
    if !toRemove.isEmpty then
      (df.dropCols toRemove, ["remove_quaternion_columns"],
        [("remove_quaternion_columns", .removeQuat toRemove)])
    else (df, [], [])
  else (df, [], [])

/-- The anomaly list of operation 2.7 (lines 641-663): fixed thresholds on
    the supplied trajectory metrics, independent of the frame contents. -/
def anomaly_entries (cfg : CleanConfig) (fi : FileInfo) : List AnomalyEntry :=
  let checkList := cfg.anomaly_detection.metrics.getD
    ["average_speed", "total_distance", "altitude_change"]
  match fi.trajectory_metrics with
  | some tm =>
    (match tm.avg_speed with
     | some v =>
       if checkList.contains "average_speed" && Q.ltB (Q.ofInt 100) v then
         [{ metric := "average_speed", value := v, threshold := Q.ofInt 100 }]
       else []
     | none => []) ++
    (match tm.altitude_change with
     | some v =>
       if checkList.contains "altitude_change" && Q.ltB (Q.ofInt 5000) v then
         [{ metric := "altitude_change", value := v, threshold := Q.ofInt 5000 }]
       else []
     | none => [])
  | none => []

/-- Operation 2.7, anomaly detection (lines 633-676): fixed thresholds on
    the supplied trajectory metrics; `flag_only=false` empties the frame. -/
def anomaly_step (cfg : CleanConfig) (fi : FileInfo) (df : PyDf) :
    PyDf × List String × List (String × RVal) :=
  if cfg.anomaly_detection.enabled && !df.isEmptyDf then
    let anoms := anomaly_entries cfg fi
    if !anoms.isEmpty then
      let flagOnly := cfg.anomaly_detection.flag_only.getD true
      let df2 := if flagOnly then df else (⟨[]⟩ : PyDf)
      (df2, ["anomaly_detection"],
        [("anomaly_detection", .anomaly anoms (if flagOnly then "flagged" else "removed"))])
    else (df, [], [])
  else (df, [], [])

/-- Operation 2.8, file resequencing (lines 678-688): records intent only. -/
def resequencing_step (cfg : CleanConfig) (fi : FileInfo) :
    List String × List (String × RVal) :=
  if cfg.file_resequencing.enabled then
    (["file_resequencing"], [("file_resequencing", .reseq fi.filename)])
  else ([], [])

/-- File-size short-circuit condition of operation 2.1 (lines 410-418). -/
def fsfShort (cfg : CleanConfig) (fi : FileInfo) : Bool :=
  cfg.file_size_filtering.enabled &&
    Q.ltB (fi.file_size_mb.getD Q.zero) (cfg.file_size_filtering.min_size_mb.getD (Q.ofInt 10))

/-- Final `cleaned_stats` block (lines 690-722). -/
def final_cleaned_stats (fi : FileInfo) (df : PyDf) : CleanedStats :=
  if !df.isEmptyDf then
    { row_count := df.nrows
      row_reduction := fi.row_count.getD 0 - Int.ofNat df.nrows
      note := none }
  else
    { row_count := 0
      row_reduction := fi.row_count.getD 0
      note := some "File removed or empty after cleaning" }

/-- The operations section of `apply_cleaning_operations` (lines 404-724):
    the parsed frame flows through the eight operations in their fixed
    order, each appending its own `operations_applied` and
    `cleaning_results` entries; the file-size filter short-circuits. -/
def apply_cleaning_operations_ops (fi : FileInfo) (cfg : CleanConfig) (df : PyDf) : CResult :=
  let base : CResult :=
    { filename := fi.filename
      original_row_count := fi.row_count.getD 0
      operations_applied := []
      cleaning_results := []
      error := none
      message := none
      cleaned_stats := none
      finalDf := df }
  if fsfShort cfg fi then
    { base with
      operations_applied := ["file_size_filtering"]
      cleaning_results :=
        [("file_size_filtering",
          .fileSizeSkip (fi.file_size_mb.getD Q.zero)
            (cfg.file_size_filtering.min_size_mb.getD (Q.ofInt 10)))] }
  else
    let s2 := header_management_step cfg df
    let s3 := static_flight_step cfg fi s2.1
    let s4 := trim_static_start_step cfg s3.1
    let s5 := remove_static_samples_step cfg s4.1
    let s6 := remove_quaternion_step cfg s5.1
    let s7 := anomaly_step cfg fi s6.1
    let s8 := resequencing_step cfg fi
    { base with
      operations_applied := s2.2.1 ++ s3.2.1 ++ s4.2.1 ++ s5.2.1 ++ s6.2.1 ++ s7.2.1 ++ s8.1
      cleaning_results := s2.2.2 ++ s3.2.2 ++ s4.2.2 ++ s5.2.2 ++ s6.2.2 ++ s7.2.2 ++ s8.2
      cleaned_stats := some (final_cleaned_stats fi s7.1)
      finalDf := s7.1 }

/-- The full `apply_cleaning_operations` boundary (lines 276-729) for the
    in-memory path: empty content is the guarded `File content not
    available` result, a parse failure (the `pd.read_csv` calls, supplied
    here as an oracle since pandas is external) is caught by the outermost
    handler, and otherwise the operations run; no exception escapes. -/
def apply_cleaning_operations_full (fi : FileInfo) (parse : Except String PyDf)
    (cfg : CleanConfig) : CResult :=
  let base : CResult :=
    { filename := fi.filename
      original_row_count := fi.row_count.getD 0
      operations_applied := []
      cleaning_results := []
      error := none
      message := none
      cleaned_stats := none
      finalDf := ⟨[]⟩ }
  if fi.content == "" then { base with error := some "File content not available" }
  else
    match parse with
    | .ok df => apply_cleaning_operations_ops fi cfg df
    | .error e => { base with error := some ("Error applying cleaning operations: " ++ e) }

/-- The result shape of `analyze_csv_file`: its success dict (abstracted as
    the payload, computed by pandas/statistics code outside this model) has
    no `error` or `message` key, and its exception handler (src/utils/
    data_cleaner.py lines 268-274) returns `filename` + `error` only; the
    `message` field exists solely to state what the dict never contains. -/
structure AnalyzeResult (α : Type) where
  filename : String
  payload : Option α
  error : Option String
  message : Option String
deriving DecidableEq, Repr

/-- The outermost try/except boundary of `analyze_csv_file` (lines 33 and
    268-274). -/
def analyze_csv_file_catch {α : Type} (filename : String) (body : Except String α) :
    AnalyzeResult α :=
  match body with
  | .ok a => { filename := filename, payload := some a, error := none, message := none }
  | .error e => { filename := filename, payload := none, error := some e, message := none }

/-- A well-formed frame: every column has the frame row count (pandas
    guarantees rectangularity). -/
def PyDf.WF (df : PyDf) : Prop := ∀ c ∈ df.cols, c.cells.length = df.nrows

instance (df : PyDf) : Decidable df.WF := by
  unfold PyDf.WF
  infer_instance

/-- Ceiling division on naturals. -/
def ceilDivNat (a b : Nat) : Nat := (a + b - 1) / b

theorem nrows_renameCols (df : PyDf) (m : List (String × String)) :
    (df.renameCols m).nrows = df.nrows := by
  cases h : df.cols with
  | nil => simp [PyDf.renameCols, PyDf.nrows, h]
  | cons c t => simp [PyDf.renameCols, PyDf.nrows, h]

theorem wf_renameCols (df : PyDf) (m : List (String × String)) (h : df.WF) :
    (df.renameCols m).WF := by
  intro c hc
  simp only [PyDf.renameCols, List.mem_map] at hc
  obtain ⟨c0, hc0, rfl⟩ := hc
  simpa [nrows_renameCols] using h c0 hc0

theorem nrows_coerce (df : PyDf) (n : String) : (df.coerceNumeric n).nrows = df.nrows := by
  cases h : df.cols with
  | nil => simp [PyDf.coerceNumeric, PyDf.nrows, h]
  | cons c t =>
    simp only [PyDf.coerceNumeric, PyDf.nrows, h, List.map_cons]
    split <;> simp

theorem wf_coerce (df : PyDf) (n : String) (h : df.WF) : (df.coerceNumeric n).WF := by
  intro c hc
  simp only [PyDf.coerceNumeric, List.mem_map] at hc
  obtain ⟨c0, hc0, rfl⟩ := hc
  have := h c0 hc0
  rw [nrows_coerce]
  split <;> simp [this]

theorem length_qqCells (vals : List QQ) : (qqCells vals).length = vals.length := by
  simp [qqCells]

theorem nrows_setNumCol (df : PyDf) (n : String) (vals : List QQ)
    (h : vals.length = df.nrows) : (df.setNumCol n vals).nrows = df.nrows := by
  unfold PyDf.setNumCol
  split
  · cases hc : df.cols with
    | nil => simp [PyDf.nrows, hc]
    | cons c t =>
      have h2 : vals.length = c.cells.length := by simpa [PyDf.nrows, hc] using h
      simp only [PyDf.nrows, hc, List.map_cons]
      split <;> simp [length_qqCells, h2, PyDf.nrows, hc]
  · cases hc : df.cols with
    | nil =>
      have h2 : vals.length = 0 := by simpa [PyDf.nrows, hc] using h
      simp [PyDf.nrows, hc, length_qqCells, h2]
    | cons c t => simp [PyDf.nrows, hc]

theorem wf_setNumCol (df : PyDf) (n : String) (vals : List QQ)
    (hw : df.WF) (h : vals.length = df.nrows) : (df.setNumCol n vals).WF := by
  intro c hc
  rw [nrows_setNumCol df n vals h]
  unfold PyDf.setNumCol at hc
  split at hc
  · simp only [List.mem_map] at hc
    obtain ⟨c0, hc0, rfl⟩ := hc
    split <;> simp [length_qqCells, h, hw c0 hc0]
  · rw [List.mem_append] at hc
    rcases hc with hc | hc
    · exact hw c hc
    · simp only [List.mem_singleton] at hc
      subst hc
      simp [length_qqCells, h]

theorem ros_inline_nrows (df0 df : PyDf) (h : ros_inline_fallback df0 = some df) :
    df.nrows = df0.nrows := by
  unfold ros_inline_fallback at h
  split at h
  · split at h
    · cases h; simp [nrows_renameCols, nrows_coerce]
    · cases h
  · cases h

theorem ros_inline_wf (df0 df : PyDf) (hw : df0.WF) (h : ros_inline_fallback df0 = some df) :
    df.WF := by
  unfold ros_inline_fallback at h
  split at h
  · split at h
    · cases h; exact wf_renameCols _ _ (wf_coerce _ _ (wf_coerce _ _ (wf_coerce _ _ hw)))
    · cases h
  · cases h

theorem resolvePositions_nrows (df0 df : PyDf) (h : resolvePositions df0 = .ok df) :
    df.nrows = df0.nrows := by
  unfold resolvePositions at h
  split at h
  · cases h; rfl
  · split at h
    · cases h; simp [nrows_renameCols]
    · split at h
      · cases h; exact ros_inline_nrows _ _ (by assumption)
      · cases h

theorem resolvePositions_wf (df0 df : PyDf) (hw : df0.WF)
    (h : resolvePositions df0 = .ok df) : df.WF := by
  unfold resolvePositions at h
  split at h
  · cases h; exact hw
  · split at h
    · cases h; exact wf_renameCols _ _ hw
    · split at h
      · cases h; exact ros_inline_wf _ _ hw (by assumption)
      · cases h

theorem getCol_of_hasCol (df : PyDf) (n : String) (h : df.hasCol n = true) :
    ∃ c, df.getCol n = some c ∧ c ∈ df.cols := by
  unfold PyDf.hasCol PyDf.names at h
  unfold PyDf.getCol
  have h2 : ∃ c ∈ df.cols, (c.name == n) = true := by
    rcases List.contains_iff_exists_mem_beq.mp h with ⟨a, ha, hb⟩
    rcases List.mem_map.mp ha with ⟨c, hc, rfl⟩
    refine ⟨c, hc, ?_⟩
    rw [beq_iff_eq] at hb ⊢
    exact hb.symm
  have h3 : (df.cols.find? (fun c => c.name == n)).isSome := by
    rw [List.find?_isSome]
    exact h2
  rcases Option.isSome_iff_exists.mp h3 with ⟨c, hc⟩
  exact ⟨c, hc, List.mem_of_find?_eq_some hc⟩

theorem colQQ_length (df : PyDf) (n : String) (hw : df.WF) (h : df.hasCol n = true) :
    (df.colQQ n).length = df.nrows := by
  rcases getCol_of_hasCol df n h with ⟨c, hc, hmem⟩
  simp [PyDf.colQQ, hc, hw c hmem]

theorem timeCellsOf_length (df : PyDf) (hw : df.WF)
    (hs : df.hasCol "sec" = true) (hn : df.hasCol "nanosec" = true) :
    (timeCellsOf df).length = df.nrows := by
  simp [timeCellsOf, colQQ_length df _ hw hs, colQQ_length df _ hw hn]

theorem timeStage_nrows (df : PyDf) (tdat : PyDf × QQ) (hw : df.WF)
    (h : timeStage df = .ok tdat) : tdat.1.nrows = df.nrows ∧ tdat.1.WF := by
  unfold timeStage at h
  split at h
  · rename_i hts
    rw [Bool.and_eq_true] at hts
    have hlen := timeCellsOf_length df hw hts.1 hts.2
    have hn1 : (df.setNumCol "time" (timeCellsOf df)).nrows = df.nrows :=
      nrows_setNumCol df _ _ hlen
    have hw1 : (df.setNumCol "time" (timeCellsOf df)).WF := wf_setNumCol df _ _ hw hlen
    have hlen2 : ((timeCellsOf df).map (fun t => qqSub t (listMinQQ (timeCellsOf df)))).length
        = (df.setNumCol "time" (timeCellsOf df)).nrows := by
      simp [hlen, hn1]
    have h1 : tdat.1 = (df.setNumCol "time" (timeCellsOf df)).setNumCol "normalized_time"
        ((timeCellsOf df).map (fun t => qqSub t (listMinQQ (timeCellsOf df)))) := by
      by_cases hlt : 1 < df.nrows
      · rw [if_pos hlt] at h
        cases hdiv : pyDiv (Q.ofN df.nrows)
            (qqSub (listMaxQQ (timeCellsOf df)) (listMinQQ (timeCellsOf df))) with
        | error e => rw [hdiv] at h; simp [Except.map] at h
        | ok v =>
          rw [hdiv] at h
          simp only [Except.map, Except.bind, bind, Functor.map] at h
          cases h; rfl
      · rw [if_neg hlt] at h
        simp only [pure, Except.pure, Except.bind, bind] at h
        cases h; rfl
    constructor
    · rw [h1, nrows_setNumCol _ _ _ hlen2, hn1]
    · rw [h1]; exact wf_setNumCol _ _ _ hw1 hlen2
  · cases h
    constructor
    · exact nrows_setNumCol df _ _ (by simp)
    · exact wf_setNumCol df _ _ hw (by simp)

theorem ceilDivNat_succ (n f : Nat) (hf : 1 ≤ f) : ceilDivNat (n + 1) f = n / f + 1 := by
  unfold ceilDivNat
  have : n + 1 + f - 1 = n + f := by omega
  rw [this, Nat.add_div_right _ (by omega)]

theorem ceilDivNat_dvd (n f : Nat) (hf : 1 ≤ f) (hd : f ∣ n) : ceilDivNat n f = n / f := by
  rcases hd with ⟨q, rfl⟩
  unfold ceilDivNat
  have h1 : f * q + f - 1 = f * q + (f - 1) := by omega
  rw [h1, Nat.mul_add_div (by omega), Nat.div_eq_of_lt (by omega),
    Nat.mul_div_cancel_left _ (by omega)]
  omega

theorem ceilDivNat_not_dvd (n f : Nat) (hf : 1 ≤ f) (hd : ¬ f ∣ n) :
    ceilDivNat n f = n / f + 1 := by
  have hr : n % f ≠ 0 := fun hc => hd (Nat.dvd_of_mod_eq_zero hc)
  have hmod := Nat.mod_lt n (show 0 < f by omega)
  have hnf := Nat.div_add_mod n f
  unfold ceilDivNat
  conv_lhs => rw [← hnf]
  have h1 : f * (n / f) + n % f + f - 1 = f * (n / f) + (n % f + f - 1) := by omega
  rw [h1, Nat.mul_add_div (by omega)]
  congr 1
  have hx : n % f + f - 1 = (n % f - 1) + f := by omega
  rw [hx, Nat.add_div_right _ (by omega), Nat.div_eq_of_lt (by omega)]

theorem sampleIdx_eq_map (f : Nat) (hf : 1 ≤ f) :
    ∀ n, sampleIdx n f = (List.range (ceilDivNat n f)).map (fun k => k * f) := by
  intro n
  induction n with
  | zero =>
    have : ceilDivNat 0 f = 0 := by
      unfold ceilDivNat
      exact Nat.div_eq_of_lt (by omega)
    simp [sampleIdx, this]
  | succ n ih =>
    unfold sampleIdx at ih ⊢
    rw [List.range_succ, List.filter_append, ih]
    by_cases hd : f ∣ n
    · have hmod : (n % f == 0) = true := by
        simp [Nat.eq_zero_of_dvd_of_lt, Nat.mod_eq_zero_of_dvd hd]
      rw [ceilDivNat_succ n f hf, ceilDivNat_dvd n f hf hd]
      rw [List.range_succ, List.map_append]
      simp only [List.filter, hmod, List.map]
      rw [Nat.div_mul_cancel hd]
    · have hmod : (n % f == 0) = false := by
        rw [beq_eq_false_iff_ne]
        intro hc
        exact hd (Nat.dvd_of_mod_eq_zero hc)
      rw [ceilDivNat_succ n f hf, ceilDivNat_not_dvd n f hf hd]
      simp [List.filter, hmod]

theorem trajLoop_ok_length (df : PyDf) :
    ∀ (inds : List Nat) (prev : Option Pos3) (dist : QQ) (pts : List VPoint) (d : QQ),
      trajLoop df inds prev dist = .ok (pts, d) → pts.length = inds.length := by
  intro inds
  induction inds with
  | nil =>
    intro prev dist pts d h
    unfold trajLoop at h
    cases h
    rfl
  | cons i rest ih =>
    intro prev dist pts d h
    unfold trajLoop at h
    cases hs : stepFn df i with
    | error e => rw [hs] at h; simp [Except.bind, bind] at h
    | ok pr =>
      rw [hs] at h
      simp only [Except.bind, bind] at h
      generalize hd2 : (match prev with
           | some p => qqAdd dist (segDistance pr.2 p)
           | none => dist) = d2 at h
      cases hr : trajLoop df rest (some pr.2) d2 with
      | error e => rw [hr] at h; simp at h
      | ok res =>
        rw [hr] at h
        simp only [pure, Except.pure] at h
        cases h
        simp [ih _ _ _ _ hr]

theorem trajLoop_ok_get (df : PyDf) :
    ∀ (inds : List Nat) (prev : Option Pos3) (dist : QQ) (pts : List VPoint) (d : QQ),
      trajLoop df inds prev dist = .ok (pts, d) →
      ∀ k, pts.get? k = (inds.get? k).bind (fun i => (stepFn df i).toOption.map Prod.fst) := by
  intro inds
  induction inds with
  | nil =>
    intro prev dist pts d h k
    unfold trajLoop at h
    cases h
    simp
  | cons i rest ih =>
    intro prev dist pts d h k
    unfold trajLoop at h
    cases hs : stepFn df i with
    | error e => rw [hs] at h; simp [Except.bind, bind] at h
    | ok pr =>
      rw [hs] at h
      simp only [Except.bind, bind] at h
      generalize hd2 : (match prev with
           | some p => qqAdd dist (segDistance pr.2 p)
           | none => dist) = d2 at h
      cases hr : trajLoop df rest (some pr.2) d2 with
      | error e => rw [hr] at h; simp at h
      | ok res =>
        rw [hr] at h
        simp only [pure, Except.pure] at h
        cases h
        cases k with
        | zero => simp [hs, Except.toOption]
        | succ k => simpa using ih _ _ _ _ hr k

theorem process_ok_inv (df0 : PyDf) (sr : Nat) (data : List VPoint) (meta : ProcMeta)
    (h : process_csv_data_model df0 sr = .ok data meta) :
    ∃ df tdat,
      resolvePositions df0 = .ok df ∧ timeStage df = .ok tdat ∧
      trajLoop tdat.1 (sampleIdx tdat.1.nrows (samplingFactor sr tdat.1.nrows)) none
          (some Q.zero) = .ok (data, meta.distance) ∧
      meta.points_count = data.length ∧
      meta.original_count = df.nrows ∧
      meta.altitude_range = altRangeOf tdat.1 ∧
      meta.duration = tdat.2 ∧
      meta.sampling_factor = samplingFactor sr tdat.1.nrows := by
  unfold process_csv_data_model at h
  cases hb : process_body df0 sr with
  | error m => rw [hb] at h; cases h
  | ok r =>
    rw [hb] at h
    subst h
    unfold process_body at hb
    cases hres : resolvePositions df0 with
    | error em =>
      rw [hres] at hb
      simp only [pure, Except.pure] at hb
      cases hb
    | ok df =>
      rw [hres] at hb
      simp only [Except.bind, bind] at hb
      cases ht : timeStage df with
      | error e => rw [ht] at hb; cases hb
      | ok tdat =>
        rw [ht] at hb
        simp only [Except.bind, bind] at hb
        cases hl : trajLoop tdat.1 (sampleIdx tdat.1.nrows (samplingFactor sr tdat.1.nrows))
            none (some Q.zero) with
        | error e => rw [hl] at hb; cases hb
        | ok res =>
          rw [hl] at hb
          simp only [pure, Except.pure] at hb
          cases hb
          exact ⟨df, tdat, rfl, ht, by simpa using hl, rfl, rfl, rfl, rfl, rfl⟩

theorem find_replaced (n : String) (pc : PyCol) (hn : (pc.name == n) = true) :
    ∀ t : List PyCol, t.any (fun c => c.name == n) = true →
      (t.map (fun c => if c.name == n then pc else c)).find? (fun c => c.name == n) = some pc := by
  intro t
  induction t with
  | nil => intro h; simp at h
  | cons c t ih =>
    intro h
    by_cases hc : (c.name == n) = true
    · simp [List.find?, hc, hn]
    · have hc2 : (c.name == n) = false := by
        cases hb : (c.name == n) with
        | true => exact absurd hb hc
        | false => rfl
      have h2 : t.any (fun c => c.name == n) = true := by
        rcases List.any_eq_true.mp h with ⟨a, ha, hpa⟩
        rcases List.mem_cons.mp ha with rfl | ha2
        · exact absurd hpa hc
        · exact List.any_eq_true.mpr ⟨a, ha2, hpa⟩
      simp only [List.map_cons, hc2, Bool.false_eq_true, if_false]
      rw [List.find?_cons_of_neg _ (by simp [hc2])]
      exact ih h2

theorem find_appended (n : String) (pc : PyCol) (hn : (pc.name == n) = true) :
    ∀ t : List PyCol, t.any (fun c => c.name == n) = false →
      (t ++ [pc]).find? (fun c => c.name == n) = some pc := by
  intro t
  induction t with
  | nil => simp [List.find?, hn]
  | cons c t ih =>
    intro h
    rw [List.any_cons, Bool.or_eq_false_iff] at h
    simp [List.find?, h.1, ih h.2]

theorem hasCol_any (df : PyDf) (n : String) :
    df.hasCol n = df.cols.any (fun c => c.name == n) := by
  unfold PyDf.hasCol PyDf.names
  induction df.cols with
  | nil => rfl
  | cons c t ih =>
    simp only [List.map_cons, List.contains_cons, List.any_cons, ih]
    congr 1
    cases hb : (n == c.name) <;> cases hb2 : (c.name == n) <;> simp_all [beq_iff_eq]

theorem getCol_setNumCol_self (df : PyDf) (n : String) (vals : List QQ) :
    (df.setNumCol n vals).getCol n = some ⟨n, true, qqCells vals⟩ := by
  unfold PyDf.setNumCol
  rw [hasCol_any]
  split
  · rename_i hcol
    unfold PyDf.getCol
    exact find_replaced n _ (by simp) df.cols hcol
  · rename_i hcol
    unfold PyDf.getCol
    exact find_appended n _ (by simp) df.cols (by
      cases hb : df.cols.any (fun c => c.name == n) with
      | true => exact absurd hb hcol
      | false => rfl)

theorem cellAt_setNumCol_self (df : PyDf) (n : String) (vals : List QQ) (i : Nat) :
    (df.setNumCol n vals).cellAt n i = (qqCells vals).getD i .nan := by
  simp [PyDf.cellAt, getCol_setNumCol_self]

theorem pyFloat_qqCells (vals : List QQ) (i : Nat) (hi : i < vals.length) :
    pyFloat ((qqCells vals).getD i .nan) = .ok (vals.getD i none) := by
  unfold qqCells
  rw [List.getD_eq_getElem?_getD, List.getElem?_map, List.getD_eq_getElem?_getD]
  rw [List.getElem?_eq_getElem hi]
  cases vals[i] <;> simp [pyFloat]

theorem stepFn_time (df : PyDf) (i : Nat) (pt : VPoint) (pos : Pos3)
    (h : stepFn df i = .ok (pt, pos)) :
    pyFloat (df.cellAt "normalized_time" i) = .ok pt.time := by
  unfold stepFn at h
  cases h1 : pyFloat (df.cellAt "position_n" i) with
  | error e => rw [h1] at h; cases h
  | ok pnv =>
  rw [h1] at h
  simp only [Except.bind, bind] at h
  cases h2 : pyFloat (df.cellAt "position_e" i) with
  | error e => rw [h2] at h; cases h
  | ok pev =>
  rw [h2] at h
  simp only [Except.bind, bind] at h
  cases h3 : pyFloat (df.cellAt "position_d" i) with
  | error e => rw [h3] at h; cases h
  | ok pdv =>
  rw [h3] at h
  simp only [Except.bind, bind] at h
  cases h4 : optColFold df i ["phi", "theta", "psi"] with
  | error e => rw [h4] at h; cases h
  | ok orient =>
  rw [h4] at h
  simp only [Except.bind, bind] at h
  cases h5 : optColFold df i ["u", "v", "w"] with
  | error e => rw [h5] at h; cases h
  | ok vel =>
  rw [h5] at h
  simp only [Except.bind, bind] at h
  cases h6 : pyFloat (df.cellAt "normalized_time" i) with
  | error e => rw [h6] at h; cases h
  | ok tv =>
  rw [h6] at h
  simp only [pure, Except.pure] at h
  cases h
  rfl

theorem timeStage_frame_ts (df : PyDf) (tdat : PyDf × QQ)
    (hts : (df.hasCol "sec" && df.hasCol "nanosec") = true) (h : timeStage df = .ok tdat) :
    tdat.1 = (df.setNumCol "time" (timeCellsOf df)).setNumCol "normalized_time"
      ((timeCellsOf df).map (fun t => qqSub t (listMinQQ (timeCellsOf df)))) := by
  unfold timeStage at h
  rw [if_pos hts] at h
  by_cases hlt : 1 < df.nrows
  · rw [if_pos hlt] at h
    cases hdiv : pyDiv (Q.ofN df.nrows)
        (qqSub (listMaxQQ (timeCellsOf df)) (listMinQQ (timeCellsOf df))) with
    | error e => rw [hdiv] at h; simp [Except.map] at h
    | ok v =>
      rw [hdiv] at h
      simp only [Except.map, Except.bind, bind, Functor.map] at h
      cases h; rfl
  · rw [if_neg hlt] at h
    simp only [pure, Except.pure, Except.bind, bind] at h
    cases h; rfl

theorem timeStage_frame_nots (df : PyDf) (tdat : PyDf × QQ)
    (hts : (df.hasCol "sec" && df.hasCol "nanosec") = false) (h : timeStage df = .ok tdat) :
    tdat.1 = df.setNumCol "normalized_time"
      ((List.range df.nrows).map (fun i => some (Q.mk2 (Int.ofNat i) 10))) := by
  unfold timeStage at h
  rw [hts] at h
  simp only [Bool.false_eq_true, if_false, pure, Except.pure] at h
  cases h; rfl

theorem sampleIdx_mem_lt (n f i : Nat) (h : i ∈ sampleIdx n f) : i < n := by
  unfold sampleIdx at h
  exact List.mem_range.mp (List.mem_of_mem_filter h)

theorem samplingFactor_pos (sr rows : Nat) : 1 ≤ samplingFactor sr rows := by
  unfold samplingFactor
  split <;> omega

theorem sampleIdx_length (n f : Nat) (hf : 1 ≤ f) :
    (sampleIdx n f).length = ceilDivNat n f := by
  rw [sampleIdx_eq_map f hf n]
  simp

theorem process_frame_nrows (df0 df : PyDf) (tdat : PyDf × QQ) (hw : df0.WF)
    (hres : resolvePositions df0 = .ok df) (ht : timeStage df = .ok tdat) :
    tdat.1.nrows = df0.nrows := by
  have hwf := resolvePositions_wf df0 df hw hres
  have h1 := (timeStage_nrows df tdat hwf ht).1
  rw [h1, resolvePositions_nrows df0 df hres]

/-- C2: with default settings the sampling factor is `max(1, R // 1000)`
    and the projected series has exactly `ceil(R / factor)` points; with an
    explicit rate `N > 1` the factor is `N` and the sampled rows are every
    Nth row starting at row 0. -/
theorem claim_C2_sampling_bound (df0 : PyDf) (sr : Nat) (data : List VPoint) (meta : ProcMeta)
    (hw : df0.WF) (h : process_csv_data_model df0 sr = .ok data meta) :
    meta.sampling_factor = samplingFactor sr df0.nrows ∧
    (sr ≤ 1 → meta.sampling_factor = max 1 (df0.nrows / 1000)) ∧
    (1 < sr → meta.sampling_factor = sr) ∧
    data.length = ceilDivNat df0.nrows meta.sampling_factor ∧
    sampleIdx df0.nrows meta.sampling_factor =
      (List.range (ceilDivNat df0.nrows meta.sampling_factor)).map
        (fun k => k * meta.sampling_factor) := by
  rcases process_ok_inv df0 sr data meta h with
    ⟨df, tdat, hres, ht, hl, hpc, hoc, har, hdur, hf⟩
  have hnr : tdat.1.nrows = df0.nrows := process_frame_nrows df0 df tdat hw hres ht
  rw [hnr] at hf hl
  have hfpos : 1 ≤ samplingFactor sr df0.nrows := samplingFactor_pos sr df0.nrows
  refine ⟨hf, ?_, ?_, ?_, ?_⟩
  · intro hsr
    rw [hf]
    unfold samplingFactor
    rw [if_neg (by omega)]
  · intro hsr
    rw [hf]
    unfold samplingFactor
    rw [if_pos hsr]
  · have := trajLoop_ok_length tdat.1 _ _ _ _ _ hl
    rw [this, hf, sampleIdx_length _ _ hfpos]
  · rw [hf]
    exact sampleIdx_eq_map _ hfpos df0.nrows

/-- C10: for every nonempty well-formed table whose processing succeeds,
    the projected series is nonempty, its first point is built from row 0,
    and the sampled row indices are strictly increasing, for every sampling
    factor including explicit rates larger than the row count. -/
theorem claim_C10_order_first_row (df0 : PyDf) (sr : Nat) (data : List VPoint) (meta : ProcMeta)
    (hw : df0.WF) (hn : 1 ≤ df0.nrows)
    (h : process_csv_data_model df0 sr = .ok data meta) :
    data ≠ [] ∧
    (sampleIdx df0.nrows meta.sampling_factor).head? = some 0 ∧
    List.Pairwise (fun a b => a < b) (sampleIdx df0.nrows meta.sampling_factor) ∧
    ∃ dfr, dfr.nrows = df0.nrows ∧
      ∀ k, data.get? k =
        ((sampleIdx df0.nrows meta.sampling_factor).get? k).bind
          (fun i => (stepFn dfr i).toOption.map Prod.fst) := by
  rcases process_ok_inv df0 sr data meta h with
    ⟨df, tdat, hres, ht, hl, hpc, hoc, har, hdur, hf⟩
  have hnr : tdat.1.nrows = df0.nrows := process_frame_nrows df0 df tdat hw hres ht
  rw [hnr] at hl
  have hfpos : 1 ≤ samplingFactor sr df0.nrows := samplingFactor_pos sr df0.nrows
  have hcpos : 1 ≤ ceilDivNat df0.nrows (samplingFactor sr df0.nrows) := by
    unfold ceilDivNat
    rw [Nat.one_le_div_iff (by omega)]
    omega
  have hlen := trajLoop_ok_length tdat.1 _ _ _ _ _ hl
  rw [sampleIdx_length _ _ hfpos] at hlen
  refine ⟨?_, ?_, ?_, tdat.1, hnr, ?_⟩
  · intro hdata
    rw [hdata] at hlen
    simp at hlen
    omega
  · rw [hf, hnr, sampleIdx_eq_map _ hfpos df0.nrows]
    rcases Nat.exists_eq_add_of_le hcpos with ⟨c, hc⟩
    rw [hc]
    rw [show 1 + c = c + 1 by omega, List.range_succ_eq_map]
    simp
  · rw [hf, hnr, sampleIdx_eq_map _ hfpos df0.nrows]
    refine List.Pairwise.map _ ?_ (List.pairwise_lt_range _)
    intro a b hab
    have hfp : 0 < samplingFactor sr df0.nrows := by omega
    exact (Nat.mul_lt_mul_right hfp).mpr hab
  · intro k
    rw [hf, hnr]
    exact trajLoop_ok_get tdat.1 _ _ _ _ _ hl k

/-- C5 (amended): when `sec` and `nanosec` columns are resolved, each
    output point time is `(sec + nanosec/1e9)` minus the column MINIMUM over
    all rows (not the first row value); without those columns it is the row
    index over an assumed 10 Hz rate. -/
theorem claim_C5_time_normalization (df0 df : PyDf) (sr : Nat) (data : List VPoint) (meta : ProcMeta)
    (hw : df0.WF)
    (h : process_csv_data_model df0 sr = .ok data meta)
    (hres : resolvePositions df0 = .ok df) :
    ((df.hasCol "sec" && df.hasCol "nanosec") = true →
      ∀ k i pt, (sampleIdx df0.nrows meta.sampling_factor).get? k = some i →
        data.get? k = some pt →
        pt.time = qqSub ((timeCellsOf df).getD i none) (listMinQQ (timeCellsOf df))) ∧
    ((df.hasCol "sec" && df.hasCol "nanosec") = false →
      ∀ k i pt, (sampleIdx df0.nrows meta.sampling_factor).get? k = some i →
        data.get? k = some pt →
        pt.time = some (Q.mk2 (Int.ofNat i) 10)) := by
  rcases process_ok_inv df0 sr data meta h with
    ⟨df2, tdat, hres2, ht, hl, hpc, hoc, har, hdur, hf⟩
  have hdf : df2 = df := by
    rw [hres] at hres2
    cases hres2
    rfl
  subst hdf
  have hwf : df2.WF := resolvePositions_wf df0 df2 hw hres
  have hnr : tdat.1.nrows = df0.nrows := process_frame_nrows df0 df2 tdat hw hres ht
  rw [hnr] at hl
  have hget := trajLoop_ok_get tdat.1 _ _ _ _ _ hl
  have hstep : ∀ k i pt, (sampleIdx df0.nrows meta.sampling_factor).get? k = some i →
      data.get? k = some pt → ∃ pos, stepFn tdat.1 i = .ok (pt, pos) ∧ i < df0.nrows := by
    intro k i pt hk hd
    have h1 := hget k
    rw [hf, hnr] at hk
    rw [hk, hd] at h1
    simp only [Option.some_bind] at h1
    have hi : i < df0.nrows := by
      exact sampleIdx_mem_lt df0.nrows (samplingFactor sr df0.nrows) i (List.get?_mem hk)
    cases hs : stepFn tdat.1 i with
    | error e =>
      rw [hs] at h1
      simp [Except.toOption] at h1
    | ok pr =>
      rw [hs] at h1
      simp only [Except.toOption] at h1
      have h2 : pt = pr.1 := by simpa using h1
      refine ⟨pr.2, ?_, hi⟩
      rw [h2]
  have hsec := (timeStage_nrows df2 tdat hwf ht).1
  constructor
  · intro hts k i pt hk hd
    rcases hstep k i pt hk hd with ⟨pos, hs, hi⟩
    have htime := stepFn_time tdat.1 i pt pos hs
    have hframe := timeStage_frame_ts df2 tdat hts ht
    rw [Bool.and_eq_true] at hts
    have hlen : ((timeCellsOf df2).map
        (fun t => qqSub t (listMinQQ (timeCellsOf df2)))).length = df0.nrows := by
      rw [List.length_map, timeCellsOf_length df2 hwf hts.1 hts.2,
        resolvePositions_nrows df0 df2 hres]
    rw [hframe, cellAt_setNumCol_self] at htime
    rw [pyFloat_qqCells _ i (by omega)] at htime
    have hval : ((timeCellsOf df2).map
        (fun t => qqSub t (listMinQQ (timeCellsOf df2)))).getD i none =
        qqSub ((timeCellsOf df2).getD i none) (listMinQQ (timeCellsOf df2)) := by
      have hi2 : i < (timeCellsOf df2).length := by
        rw [timeCellsOf_length df2 hwf hts.1 hts.2, resolvePositions_nrows df0 df2 hres]
        exact hi
      rw [List.getD_eq_getElem?_getD, List.getElem?_map, List.getD_eq_getElem?_getD,
        List.getElem?_eq_getElem hi2]
      simp
    rw [hval] at htime
    injection htime with h3
    exact h3.symm
  · intro hts k i pt hk hd
    rcases hstep k i pt hk hd with ⟨pos, hs, hi⟩
    have htime := stepFn_time tdat.1 i pt pos hs
    have hframe := timeStage_frame_nots df2 tdat hts ht
    have hlen : ((List.range df2.nrows).map
        (fun j => (some (Q.mk2 (Int.ofNat j) 10) : QQ))).length = df0.nrows := by
      rw [List.length_map, List.length_range, resolvePositions_nrows df0 df2 hres]
    rw [hframe, cellAt_setNumCol_self] at htime
    rw [pyFloat_qqCells _ i (by omega)] at htime
    have hi2 : i < df2.nrows := by
      rw [resolvePositions_nrows df0 df2 hres]
      exact hi
    have hval : ((List.range df2.nrows).map
        (fun j => (some (Q.mk2 (Int.ofNat j) 10) : QQ))).getD i none =
        some (Q.mk2 (Int.ofNat i) 10) := by
      rw [List.getD_eq_getElem?_getD, List.getElem?_map, List.getElem?_range hi2]
      simp
    rw [hval] at htime
    injection htime with h3
    exact h3.symm

/-- Numeric cell from an integer. -/
def intCell (q : Int) : PyVal := .num (Q.ofInt q)

/-- Numeric column from integer values. -/
def numCol (nm : String) (vals : List Int) : PyCol := ⟨nm, true, vals.map intCell⟩

/-- A two-row table with only the three position columns; row 0 is the
    origin and row 1 has down = 1. -/
def posDf2 : PyDf :=
  ⟨[numCol "position_n" [0, 0], numCol "position_e" [0, 0], numCol "position_d" [0, 1]]⟩

/-- First projected point of `posDf2`. -/
def pPt0 : VPoint := ⟨some ⟨0, 1⟩, some ⟨0, 1⟩, some ⟨0, 1⟩, some ⟨0, 1⟩, []⟩

/-- Second projected point of `posDf2`. -/
def pPt1 : VPoint := ⟨some ⟨0, 1⟩, some ⟨0, 1⟩, some ⟨1, 1⟩, some ⟨1, 10⟩, []⟩

/-- Projected data of `posDf2` at the default rate. -/
def posDf2Data : List VPoint := [pPt0, pPt1]

/-- Metadata of `posDf2` at the default rate; note the distance 9/5 produced
    by the half-unscaled dz of line 288 (the true unscaled distance is 1). -/
def posDf2Meta : ProcMeta := ⟨2, 2, (some ⟨-1, 1⟩, some ⟨0, 1⟩), some ⟨9, 5⟩, some ⟨0, 1⟩, 1⟩

/-- Projected data of `posDf2` at explicit rate 5 (larger than the row
    count): only row 0 survives. -/
def posDf2Data5 : List VPoint := [pPt0]

/-- Metadata of `posDf2` at explicit rate 5. -/
def posDf2Meta5 : ProcMeta := ⟨1, 2, (some ⟨-1, 1⟩, some ⟨0, 1⟩), some ⟨0, 1⟩, some ⟨0, 1⟩, 5⟩

/-- C2 witness: the theorem applied to `posDf2` at the default rate. -/
theorem claim_C2_sampling_bound_witness :
    posDf2.WF ∧ process_csv_data_model posDf2 1 = .ok posDf2Data posDf2Meta ∧
    posDf2Data.length = ceilDivNat posDf2.nrows posDf2Meta.sampling_factor :=
  ⟨by decide, by decide,
    (claim_C2_sampling_bound posDf2 1 posDf2Data posDf2Meta (by decide) (by decide)).2.2.2.1⟩

/-- C10 witness: the theorem applied to `posDf2` at explicit rate 5. -/
theorem claim_C10_order_first_row_witness :
    posDf2.WF ∧ 1 ≤ posDf2.nrows ∧
    process_csv_data_model posDf2 5 = .ok posDf2Data5 posDf2Meta5 ∧
    posDf2Data5 ≠ [] ∧
    (sampleIdx posDf2.nrows posDf2Meta5.sampling_factor).head? = some 0 :=
  ⟨by decide, by decide, by decide,
    (claim_C10_order_first_row posDf2 5 posDf2Data5 posDf2Meta5
      (by decide) (by decide) (by decide)).1,
    (claim_C10_order_first_row posDf2 5 posDf2Data5 posDf2Meta5
      (by decide) (by decide) (by decide)).2.1⟩

/-- C4: on the table `posDf2`, whose only movement is down = 0 to 1 (true
    unscaled segment length 1), the reported cumulative distance is 9/5,
    because line 288 divides only the previous z by the 1.8 scale
    (`position.z - previous_position.z / altitude_scale`), contradicting its
    own comment and the spec requirement that the scale be fully divided
    back out. -/
theorem claim_C4_distance_scale_bug :
    process_csv_data_model posDf2 1 = .ok posDf2Data posDf2Meta ∧
    posDf2Meta.distance = some ⟨9, 5⟩ ∧
    (some (⟨9, 5⟩ : Q) : QQ) ≠ some (⟨1, 1⟩ : Q) := by
  refine ⟨by decide, by decide, by decide⟩

/-- A two-row table with timestamps whose minimum time is at row 1, not
    row 0: `sec = [5, 2]`. -/
def tsDf2 : PyDf :=
  ⟨[numCol "position_n" [0, 0], numCol "position_e" [0, 0], numCol "position_d" [0, 0],
    numCol "sec" [5, 2], numCol "nanosec" [0, 0]]⟩

/-- First projected point of `tsDf2`: its time is 3, not 0. -/
def tsPt0 : VPoint := ⟨some ⟨0, 1⟩, some ⟨0, 1⟩, some ⟨0, 1⟩, some ⟨3, 1⟩, []⟩

/-- Second projected point of `tsDf2`. -/
def tsPt1 : VPoint := ⟨some ⟨0, 1⟩, some ⟨0, 1⟩, some ⟨0, 1⟩, some ⟨0, 1⟩, []⟩

/-- Projected data of `tsDf2`. -/
def tsData : List VPoint := [tsPt0, tsPt1]

/-- Metadata of `tsDf2`. -/
def tsMeta : ProcMeta := ⟨2, 2, (some ⟨0, 1⟩, some ⟨0, 1⟩), some ⟨0, 1⟩, some ⟨3, 1⟩, 1⟩

/-- C5 counterexample: on `tsDf2` the first point time is 3 = t0 - min, not
    `t0 - t0 = 0` as the claim (subtract the FIRST row time, series starts
    at 0) requires. -/
theorem claim_C5_counterexample :
    process_csv_data_model tsDf2 1 = .ok tsData tsMeta ∧
    tsData.get? 0 = some tsPt0 ∧
    tsPt0.time = some ⟨3, 1⟩ ∧
    (timeCellsOf tsDf2).getD 0 none = some ⟨5, 1⟩ ∧
    qqSub ((timeCellsOf tsDf2).getD 0 none) ((timeCellsOf tsDf2).getD 0 none) = some ⟨0, 1⟩ ∧
    (some (⟨3, 1⟩ : Q) : QQ) ≠ some (⟨0, 1⟩ : Q) := by
  refine ⟨by decide, by decide, by decide, by decide, by decide, by decide⟩

/-- C5 witness: the amended theorem applied to `tsDf2` and its row 0. -/
theorem claim_C5_time_normalization_witness :
    tsDf2.WF ∧ process_csv_data_model tsDf2 1 = .ok tsData tsMeta ∧
    resolvePositions tsDf2 = .ok tsDf2 ∧
    (tsDf2.hasCol "sec" && tsDf2.hasCol "nanosec") = true ∧
    (sampleIdx tsDf2.nrows tsMeta.sampling_factor).get? 0 = some 0 ∧
    tsData.get? 0 = some tsPt0 ∧
    tsPt0.time = qqSub ((timeCellsOf tsDf2).getD 0 none) (listMinQQ (timeCellsOf tsDf2)) :=
  ⟨by decide, by decide, by rfl, by decide, by decide, by decide,
    (claim_C5_time_normalization tsDf2 tsDf2 1 tsData tsMeta (by decide) (by decide)
      (by rfl)).1 (by decide) 0 0 tsPt0 (by decide) (by decide)⟩

/-- C1 (amended): the ROS2 structural index-triple heuristic is tried FIRST:
    whenever a table exhibits ROS2 structure, has at least six columns, and
    the triple (3,4,5) passes the value checks, the structural mapping is
    returned regardless of any exact-name matches present. -/
theorem claim_C1_ros_beats_names (df : PyDf) (m : ColMap)
    (h1 : detect_has_ros_structure df = true)
    (h2 : 6 ≤ df.cols.length)
    (h3 : rosTripleMapping df [3, 4, 5] = some m) :
    detect_position_columns df = some m := by
  unfold detect_position_columns
  have hscan : rosScan df = some m := by
    unfold rosScan ros_candidate_sets
    simp [List.findSome?, h3]
  have hc : (detect_has_ros_structure df && decide (6 ≤ df.cols.length)) = true := by
    rw [h1, decide_eq_true h2]
    rfl
  simp only [hc, if_true, hscan]

/-- A table with ROS2 timestamp columns, a plausible numeric triple at
    indices 3, 4, 5, AND exact-name position columns `north`, `east`, `down`
    at indices 6, 7, 8. -/
def rosNameDf : PyDf :=
  ⟨[numCol "sec" [100], numCol "nanosec" [0], numCol "zzz" [7],
    numCol "a" [1], numCol "b" [2], numCol "c" [3],
    numCol "north" [10], numCol "east" [20], numCol "down" [30]]⟩

/-- The mapping the code actually returns for `rosNameDf`. -/
def rosNameMap : ColMap := [("a", "position_n"), ("b", "position_e"), ("c", "position_d")]

/-- C1 counterexample: `rosNameDf` contains the exact-name aliases `north`,
    `east`, `down`, yet resolution maps the structural triple `a`, `b`, `c`
    instead, so strategy 1 does NOT beat strategy 3. -/
theorem claim_C1_counterexample :
    detect_position_columns rosNameDf = some rosNameMap ∧
    rosNameDf.hasCol "north" = true ∧ rosNameDf.hasCol "east" = true ∧
    rosNameDf.hasCol "down" = true ∧
    lookupKV rosNameMap "north" ≠ some "position_n" := by
  refine ⟨by decide, by decide, by decide, by decide, by decide⟩

/-- C1 witness: the amended theorem applied to `rosNameDf`. -/
theorem claim_C1_ros_beats_names_witness :
    detect_has_ros_structure rosNameDf = true ∧ 6 ≤ rosNameDf.cols.length ∧
    rosTripleMapping rosNameDf [3, 4, 5] = some rosNameMap ∧
    detect_position_columns rosNameDf = some rosNameMap :=
  ⟨by decide, by decide, by decide,
    claim_C1_ros_beats_names rosNameDf rosNameMap (by decide) (by decide) (by decide)⟩

/-- C3 (amended): a valid UTF-8 buffer is reported as `utf-8` with the
    reference decode, but ANY other byte buffer is reported as `latin-1`
    (which decodes every byte sequence), so `cp1252`, `iso-8859-1` and
    `utf-16` are never reported even for buffers validly encoded in them. -/
theorem claim_C3_latin1_shadows_later_codecs (bs : List Nat) (h : ∀ b ∈ bs, b < 256) :
    ((utf8Decode bs).isSome = true →
      resolveEncoding bs = ("utf-8", true) ∧ resolvedText bs = utf8Decode bs) ∧
    (utf8Decode bs = none →
      resolveEncoding bs = ("latin-1", true) ∧ resolvedText bs = some bs) ∧
    (resolveEncoding bs).1 ≠ "cp1252" ∧ (resolveEncoding bs).1 ≠ "iso-8859-1" ∧
    (resolveEncoding bs).1 ≠ "utf-16" := by
  have hall : bs.all (fun b => b < 256) = true :=
    List.all_eq_true.mpr (fun b hb => decide_eq_true (h b hb))
  have hlat : latin1Decode bs = some bs := by
    unfold latin1Decode
    rw [hall]
    rfl
  cases hu : utf8Decode bs with
  | some t =>
    have hres : resolveEncoding bs = ("utf-8", true) := by
      unfold resolveEncoding encodings_to_try
      simp [List.find?, decodeWith, hu]
    refine ⟨fun _ => ⟨hres, ?_⟩, ?_, ?_, ?_, ?_⟩
    · unfold resolvedText
      rw [hres]
      show decodeWith "utf-8" bs = some t
      rw [show decodeWith "utf-8" bs = utf8Decode bs from rfl, hu]
    · intro hnone
      cases hnone
    · rw [hres]; decide
    · rw [hres]; decide
    · rw [hres]; decide
  | none =>
    have hres : resolveEncoding bs = ("latin-1", true) := by
      unfold resolveEncoding encodings_to_try
      simp [List.find?, decodeWith, hu, hlat]
    refine ⟨?_, fun _ => ⟨hres, ?_⟩, ?_, ?_, ?_⟩
    · intro hs
      simp at hs
    · unfold resolvedText
      rw [hres]
      exact hlat
    · rw [hres]; decide
    · rw [hres]; decide
    · rw [hres]; decide

/-- C3 counterexample: the byte 0x80 is a valid Windows-1252 encoding of
    the euro sign U+20AC, yet the resolver reports `latin-1` and the decoded
    text is U+0080, not the cp1252 reference decode. -/
theorem claim_C3_counterexample :
    cp1252Decode [128] = some [8364] ∧
    resolveEncoding [128] = ("latin-1", true) ∧
    (resolveEncoding [128]).1 ≠ "cp1252" ∧
    resolvedText [128] = some [128] ∧
    resolvedText [128] ≠ cp1252Decode [128] := by
  refine ⟨by decide, by decide, by decide, by decide, by decide⟩

/-- C3 witness: the amended theorem applied to the ASCII buffer `hi`. -/
theorem claim_C3_latin1_shadows_later_codecs_witness :
    (∀ b ∈ [104, 105], b < 256) ∧ (utf8Decode [104, 105]).isSome = true ∧
    resolveEncoding [104, 105] = ("utf-8", true) :=
  ⟨by decide, by decide,
    ((claim_C3_latin1_shadows_later_codecs [104, 105] (by decide)).1 (by decide)).1⟩

theorem procField_eq_specField (col : List Char) :
    procFieldNumeric col = specFieldNumeric col := by
  unfold procFieldNumeric specFieldNumeric pyReplaceEmpty pyIsdigit
  rw [List.filter_filter, List.filter_filter, List.filter_filter]
  have hfil : (col.filter fun a => (a != '+') && (a != 'e') && (a != '.') && (a != '-')) =
      (col.filter fun c => !(c == '-' || c == '.' || c == 'e' || c == '+')) := by
    refine List.filter_congr ?_
    intro c _
    cases h1 : c == '-' <;> cases h2 : c == '.' <;> cases h3 : c == 'e' <;>
      cases h4 : c == '+' <;> simp [bne, h1, h2, h3, h4]
  rw [hfil]

theorem digit_not_special (c : Char) (hd : pyIsDigitChar c = true) :
    (!(c == '-' || c == '.' || c == 'e' || c == '+')) = true := by
  unfold pyIsDigitChar at hd
  rw [Bool.and_eq_true] at hd
  have h1 : (c == '-') = false := by
    cases hb : c == '-' with
    | true =>
      have : c = '-' := beq_iff_eq.mp hb
      subst this
      simp at hd
    | false => rfl
  have h2 : (c == '.') = false := by
    cases hb : c == '.' with
    | true =>
      have : c = '.' := beq_iff_eq.mp hb
      subst this
      simp at hd
    | false => rfl
  have h3 : (c == 'e') = false := by
    cases hb : c == 'e' with
    | true =>
      have : c = 'e' := beq_iff_eq.mp hb
      subst this
      simp at hd
    | false => rfl
  have h4 : (c == '+') = false := by
    cases hb : c == '+' with
    | true =>
      have : c = '+' := beq_iff_eq.mp hb
      subst this
      simp at hd
    | false => rfl
  simp [h1, h2, h3, h4]

theorem cleanerField_implies_specField (col : List Char)
    (h : cleanerFieldNumeric col = true) : specFieldNumeric col = true := by
  unfold cleanerFieldNumeric pyReplaceEmpty pyIsdigit at h
  rw [List.filter_filter, Bool.and_eq_true] at h
  unfold specFieldNumeric
  have hQR : ∀ c : Char, (!(c == '-' || c == '.' || c == 'e' || c == '+')) =
      ((!(c == '-' || c == '.' || c == 'e' || c == '+')) && ((c != '.') && (c != '-'))) := by
    intro c
    cases h1 : c == '-' <;> cases h2 : c == '.' <;> cases h3 : c == 'e' <;>
      cases h4 : c == '+' <;> simp [bne, h1, h2, h3, h4]
  have hsplit : (col.filter fun c => !(c == '-' || c == '.' || c == 'e' || c == '+')) =
      (col.filter fun a => (a != '.') && (a != '-')).filter
        (fun c => !(c == '-' || c == '.' || c == 'e' || c == '+')) := by
    rw [List.filter_filter]
    exact List.filter_congr (fun c _ => hQR c)
  have hall := h.2
  have hkeep : (col.filter fun a => (a != '.') && (a != '-')).filter
      (fun c => !(c == '-' || c == '.' || c == 'e' || c == '+')) =
      (col.filter fun a => (a != '.') && (a != '-')) := by
    refine List.filter_eq_self.mpr ?_
    intro c hc
    have hd : pyIsDigitChar c = true := by
      have := List.all_eq_true.mp hall c hc
      exact this
    exact digit_not_special c hd
  rw [hsplit, hkeep]
  simp only [Bool.and_eq_true]
  exact ⟨h.1, hall⟩

/-- C6 (amended): the stated strip-and-isdigit rule is exactly the header
    heuristic of `process_csv_data`; the cleaner entry points strip only `-`
    and `.` before `isdigit`, so they satisfy only one direction: every line
    they classify headerless satisfies the rule, but lines with
    exponent-marked numeric fields (classified headerless by the rule) are
    classified as header rows there. -/
theorem claim_C6_header_heuristic (line : String) :
    (has_headers_processor line = false ↔ specHeaderless line = true) ∧
    (has_headers_cleaner line = false → specHeaderless line = true) := by
  constructor
  · unfold has_headers_processor specHeaderless
    rw [show procFieldNumeric = specFieldNumeric from funext procField_eq_specField]
    cases hall : ((splitChars ',' line.toList).filter
        (fun col => !(pyStrip col).isEmpty)).all specFieldNumeric <;> simp [hall]
  · intro h
    unfold has_headers_cleaner at h
    unfold specHeaderless
    have h2 : ((splitChars ',' line.toList).filter
        (fun col => !(pyStrip col).isEmpty)).all cleanerFieldNumeric = true := by
      simpa using h
    rw [List.all_eq_true] at h2 ⊢
    intro col hcol
    exact cleanerField_implies_specField col (h2 col hcol)

/-- C6 counterexample: the line `1e5,2,3` satisfies the stated rule (all
    fields numeric after stripping `-`, `.`, `e`, `+`) and the processor
    classifies it headerless, but both cleaner entry points classify it as a
    header row. -/
theorem claim_C6_counterexample :
    specHeaderless "1e5,2,3" = true ∧
    has_headers_processor "1e5,2,3" = false ∧
    has_headers_cleaner "1e5,2,3" = true := by
  refine ⟨by decide, by decide, by decide⟩

/-- C6 witness: the amended theorem applied to the line `1,2,3`. -/
theorem claim_C6_header_heuristic_witness :
    ((has_headers_processor "1,2,3" = false ↔ specHeaderless "1,2,3" = true) ∧
      (has_headers_cleaner "1,2,3" = false → specHeaderless "1,2,3" = true)) ∧
    specHeaderless "1,2,3" = true :=
  ⟨claim_C6_header_heuristic "1,2,3", by decide⟩

theorem resolvePositions_error_shape (df0 : PyDf) (em : String × String)
    (h : resolvePositions df0 = .error em) :
    em = ("Missing required position columns",
      "Could not find position_n, position_e, position_d columns or alternatives") := by
  unfold resolvePositions at h
  split at h
  · cases h
  · split at h
    · cases h
    · split at h
      · cases h
      · cases h
        rfl

theorem process_body_err_shape (df0 : PyDf) (sr : Nat) (e msg : String)
    (h : process_body df0 sr = .ok (.err e msg)) :
    e = "Missing required position columns" ∧
    msg = "Could not find position_n, position_e, position_d columns or alternatives" := by
  unfold process_body at h
  cases hres : resolvePositions df0 with
  | error em =>
    rw [hres] at h
    simp only [pure, Except.pure] at h
    cases h
    have := resolvePositions_error_shape df0 em hres
    rw [this]
    exact ⟨rfl, rfl⟩
  | ok df =>
    rw [hres] at h
    simp only [Except.bind, bind] at h
    cases ht : timeStage df with
    | error e2 => rw [ht] at h; cases h
    | ok tdat =>
      rw [ht] at h
      simp only [Except.bind, bind] at h
      cases hl : trajLoop tdat.1 (sampleIdx tdat.1.nrows (samplingFactor sr tdat.1.nrows))
          none (some Q.zero) with
      | error e2 => rw [hl] at h; cases h
      | ok res => rw [hl] at h; simp only [pure, Except.pure] at h; cases h

theorem ops_message_none (fi : FileInfo) (cfg : CleanConfig) (df : PyDf) :
    (apply_cleaning_operations_ops fi cfg df).message = none := by
  unfold apply_cleaning_operations_ops
  split <;> rfl

/-- C8 (amended): the three outermost boundaries catch every internal error
    and return structured dicts, but only `process_csv_data` carries both an
    `error` and a `message` field; `analyze_csv_file` and
    `apply_cleaning_operations` return an `error` field with the readable
    text folded into it and never set a `message` key. -/
theorem claim_C8_structured_errors :
    (∀ (df0 : PyDf) (sr : Nat),
      (∃ d m, process_csv_data_model df0 sr = .ok d m) ∨
      process_csv_data_model df0 sr = .err "Missing required position columns"
        "Could not find position_n, position_e, position_d columns or alternatives" ∨
      (∃ msg, process_csv_data_model df0 sr = .err "Processing error" msg)) ∧
    (∀ (α : Type) (fname : String) (body : Except String α),
      (analyze_csv_file_catch fname body).message = none ∧
      (∀ e, body = .error e → (analyze_csv_file_catch fname body).error = some e)) ∧
    (∀ (fi : FileInfo) (parse : Except String PyDf) (cfg : CleanConfig),
      (apply_cleaning_operations_full fi parse cfg).message = none ∧
      (∀ e, parse = .error e → fi.content ≠ "" →
        (apply_cleaning_operations_full fi parse cfg).error =
          some ("Error applying cleaning operations: " ++ e))) := by
  refine ⟨?_, ?_, ?_⟩
  · intro df0 sr
    unfold process_csv_data_model
    cases hb : process_body df0 sr with
    | error m => exact Or.inr (Or.inr ⟨m, rfl⟩)
    | ok r =>
      cases r with
      | ok d m => exact Or.inl ⟨d, m, rfl⟩
      | err e msg =>
        rcases process_body_err_shape df0 sr e msg hb with ⟨rfl, rfl⟩
        exact Or.inr (Or.inl rfl)
  · intro α fname body
    cases body with
    | ok a => exact ⟨rfl, fun e he => by cases he⟩
    | error e => exact ⟨rfl, fun e2 he => by cases he; rfl⟩
  · intro fi parse cfg
    unfold apply_cleaning_operations_full
    by_cases hc : fi.content == ""
    · rw [if_pos hc]
      refine ⟨rfl, fun e he hne => absurd (beq_iff_eq.mp hc) hne⟩
    · rw [if_neg hc]
      cases parse with
      | ok df => exact ⟨ops_message_none fi cfg df, fun e he hne => by cases he⟩
      | error e => exact ⟨rfl, fun e2 he hne => by cases he; rfl⟩

/-- C8 counterexample: the `analyze_csv_file` exception result carries the
    error text but no `message` field, contrary to the claim that every
    outermost boundary returns both `error` and `message`. -/
theorem claim_C8_counterexample :
    (analyze_csv_file_catch (α := Unit) "f.csv" (.error "boom")).error = some "boom" ∧
    (analyze_csv_file_catch (α := Unit) "f.csv" (.error "boom")).message = none := by
  exact ⟨rfl, rfl⟩

/-- C8 witness: the amended theorem applied to a concrete failing parse. -/
theorem claim_C8_structured_errors_witness :
    (analyze_csv_file_catch (α := Unit) "t.csv" (.error "bad")).message = none ∧
    (analyze_csv_file_catch (α := Unit) "t.csv" (.error "bad")).error = some "bad" :=
  ⟨(claim_C8_structured_errors.2.1 Unit "t.csv" (.error "bad")).1,
    (claim_C8_structured_errors.2.1 Unit "t.csv" (.error "bad")).2 "bad" rfl⟩

theorem hm_ops_shape (cfg : CleanConfig) (df : PyDf) :
    (header_management_step cfg df).2.1 = [] ∨
    (header_management_step cfg df).2.1 = ["header_management"] := by
  unfold header_management_step
  dsimp only
  repeat' first
    | exact Or.inl rfl
    | exact Or.inr rfl
    | split

theorem sf_ops_shape (cfg : CleanConfig) (fi : FileInfo) (df : PyDf) :
    (static_flight_step cfg fi df).2.1 = [] ∨
    (static_flight_step cfg fi df).2.1 = ["static_flight_detection"] := by
  unfold static_flight_step
  dsimp only
  repeat' first
    | exact Or.inl rfl
    | exact Or.inr rfl
    | split

theorem trim_ops_shape (cfg : CleanConfig) (df : PyDf) :
    (trim_static_start_step cfg df).2.1 = [] ∨
    (trim_static_start_step cfg df).2.1 = ["trim_static_start"] := by
  unfold trim_static_start_step
  dsimp only
  repeat' first
    | exact Or.inl rfl
    | exact Or.inr rfl
    | split

theorem rss_ops_shape (cfg : CleanConfig) (df : PyDf) :
    (remove_static_samples_step cfg df).2.1 = [] ∨
    (remove_static_samples_step cfg df).2.1 = ["remove_static_samples"] := by
  unfold remove_static_samples_step
  dsimp only
  repeat' first
    | exact Or.inl rfl
    | exact Or.inr rfl
    | split

theorem quat_ops_shape (cfg : CleanConfig) (df : PyDf) :
    (remove_quaternion_step cfg df).2.1 = [] ∨
    (remove_quaternion_step cfg df).2.1 = ["remove_quaternion_columns"] := by
  unfold remove_quaternion_step
  dsimp only
  repeat' first
    | exact Or.inl rfl
    | exact Or.inr rfl
    | split

theorem anomaly_ops_shape (cfg : CleanConfig) (fi : FileInfo) (df : PyDf) :
    (anomaly_step cfg fi df).2.1 = [] ∨
    (anomaly_step cfg fi df).2.1 = ["anomaly_detection"] := by
  unfold anomaly_step
  dsimp only
  repeat' first
    | exact Or.inl rfl
    | exact Or.inr rfl
    | split

theorem reseq_ops_shape (cfg : CleanConfig) (fi : FileInfo) :
    (resequencing_step cfg fi).1 = [] ∨
    (resequencing_step cfg fi).1 = ["file_resequencing"] := by
  unfold resequencing_step
  repeat' first
    | exact Or.inl rfl
    | exact Or.inr rfl
    | split

theorem optAppend_sublist (x : String) (l l2 L2 : List String)
    (hl : l = [] ∨ l = [x]) (h : l2.Sublist L2) : (l ++ l2).Sublist (x :: L2) := by
  rcases hl with rfl | rfl
  · exact h.cons x
  · exact h.cons₂ x

/-- C9 (amended): the `operations_applied` entries are appended in the fixed
    section-4.5 operation order, each at most once, so the recorded sequence
    is always a subsequence of the canonical order with no reordering or
    duplication. -/
theorem claim_C9_report_order (fi : FileInfo) (cfg : CleanConfig) (df : PyDf) :
    (apply_cleaning_operations_ops fi cfg df).operations_applied.Sublist
      ["file_size_filtering", "header_management", "static_flight_detection",
       "trim_static_start", "remove_static_samples", "remove_quaternion_columns",
       "anomaly_detection", "file_resequencing"] := by
  unfold apply_cleaning_operations_ops
  split
  · dsimp only
    decide
  · dsimp only
    simp only [List.append_assoc]
    refine List.Sublist.cons _ ?_
    refine optAppend_sublist _ _ _ _ (hm_ops_shape cfg df) ?_
    refine optAppend_sublist _ _ _ _ (sf_ops_shape cfg fi _) ?_
    refine optAppend_sublist _ _ _ _ (trim_ops_shape cfg _) ?_
    refine optAppend_sublist _ _ _ _ (rss_ops_shape cfg _) ?_
    refine optAppend_sublist _ _ _ _ (quat_ops_shape cfg _) ?_
    refine optAppend_sublist _ _ _ _ (anomaly_ops_shape cfg fi _) ?_
    rcases reseq_ops_shape cfg fi with h | h <;> rw [h] <;> decide

/-- File info whose trajectory metrics make static-flight detection keep the
    table (distance 50 over the default threshold 10). -/
def fiKept : FileInfo :=
  { filename := "k.csv"
    content := "x"
    row_count := some 2
    file_size_mb := some ⟨1, 1⟩
    file_size_bytes := some ⟨100, 1⟩
    trajectory_metrics := some
      { total_distance := some ⟨50, 1⟩, avg_speed := none, altitude_change := none } }

/-- Configuration with only static-flight detection enabled. -/
def cfgKept : CleanConfig :=
  { cfg0 with static_flight_detection := { enabled := true, distance_threshold := none } }

/-- C9 counterexample: static-flight detection is enabled and runs (it
    records its `kept` flag in `cleaning_results`), yet `operations_applied`
    gains no entry, so not every enabled operation that runs appends one. -/
theorem claim_C9_counterexample :
    cfgKept.static_flight_detection.enabled = true ∧
    (apply_cleaning_operations_ops fiKept cfgKept posDf2).cleaning_results =
      [("static_flight_detection", RVal.staticFlight "kept" ⟨50, 1⟩)] ∧
    (apply_cleaning_operations_ops fiKept cfgKept posDf2).operations_applied = [] := by
  refine ⟨by decide, by decide, by decide⟩

/-- C9 witness: the order theorem applied at a concrete run. -/
theorem claim_C9_report_order_witness :
    (apply_cleaning_operations_ops fiKept cfgKept posDf2).operations_applied.Sublist
      ["file_size_filtering", "header_management", "static_flight_detection",
       "trim_static_start", "remove_static_samples", "remove_quaternion_columns",
       "anomaly_detection", "file_resequencing"] :=
  claim_C9_report_order fiKept cfgKept posDf2

theorem hm_step_disabled (cfg : CleanConfig) (d : PyDf)
    (h : cfg.header_management.enabled = false) :
    header_management_step cfg d = (d, [], []) := by
  unfold header_management_step
  rw [h]
  rfl

theorem trim_step_disabled (cfg : CleanConfig) (d : PyDf)
    (h : cfg.trim_static_start.enabled = false) :
    trim_static_start_step cfg d = (d, [], []) := by
  unfold trim_static_start_step
  rw [h]
  rfl

theorem rss_step_disabled (cfg : CleanConfig) (d : PyDf)
    (h : cfg.remove_static_samples.enabled = false) :
    remove_static_samples_step cfg d = (d, [], []) := by
  unfold remove_static_samples_step
  rw [h]
  rfl

theorem isEmptyDf_nil : (⟨[]⟩ : PyDf).isEmptyDf = true := rfl

theorem quat_step_empty (cfg : CleanConfig) (d : PyDf) (h : d.isEmptyDf = true) :
    (remove_quaternion_step cfg d).1 = d := by
  unfold remove_quaternion_step
  rw [h]
  simp

theorem anomaly_step_empty (cfg : CleanConfig) (fi : FileInfo) (d : PyDf)
    (h : d.isEmptyDf = true) :
    (anomaly_step cfg fi d).1 = d := by
  unfold anomaly_step
  rw [h]
  simp

theorem sf_step_df_cases (cfg : CleanConfig) (fi : FileInfo) :
    (∀ d : PyDf, (static_flight_step cfg fi d).1 = (⟨[]⟩ : PyDf)) ∨
    (∀ d : PyDf, (static_flight_step cfg fi d).1 = d) := by
  unfold static_flight_step
  cases he : cfg.static_flight_detection.enabled
  · right; intro d; simp [he]
  · cases htm : fi.trajectory_metrics with
    | none => right; intro d; simp [he, htm]
    | some tm =>
      cases htd : tm.total_distance with
      | none => right; intro d; simp [he, htm, htd]
      | some td =>
        by_cases hlt : Q.ltB td
            (cfg.static_flight_detection.distance_threshold.getD (Q.ofInt 10)) = true
        · left; intro d; simp [he, htm, htd, hlt]
        · right; intro d; simp [he, htm, htd, hlt]

theorem hasCol_dropCols_of_mem (d : PyDf) (R : List String) (c : String) (hc : c ∈ R) :
    (d.dropCols R).hasCol c = false := by
  rw [hasCol_any]
  unfold PyDf.dropCols
  simp only [List.any_filter]
  rw [List.any_eq_false]
  intro col _
  cases hn : (col.name == c)
  · simp
  · rw [beq_iff_eq] at hn
    subst hn
    have : R.contains col.name = true :=
      List.contains_iff_exists_mem_beq.mpr ⟨col.name, hc, by simp⟩
    simp only [this, Bool.not_true, Bool.false_and]
    simp

theorem quat_step_disabled (cfg : CleanConfig) (d : PyDf)
    (h : cfg.remove_quaternion_columns.enabled = false) :
    remove_quaternion_step cfg d = (d, [], []) := by
  unfold remove_quaternion_step
  rw [h]
  rfl

theorem hasCol_dropCols_le (d : PyDf) (R : List String) (c : String)
    (h : (d.dropCols R).hasCol c = true) : d.hasCol c = true := by
  rw [hasCol_any] at h ⊢
  unfold PyDf.dropCols at h
  simp only [List.any_filter] at h
  rw [List.any_eq_true] at h ⊢
  rcases h with ⟨col, hmem, hp⟩
  rw [Bool.and_eq_true] at hp
  exact ⟨col, hmem, hp.2⟩

theorem quat_step_idem (cfg : CleanConfig) (d : PyDf) :
    (remove_quaternion_step cfg (remove_quaternion_step cfg d).1).1 =
      (remove_quaternion_step cfg d).1 := by
  cases he : cfg.remove_quaternion_columns.enabled
  · rw [quat_step_disabled cfg d he]
    dsimp only
    rw [quat_step_disabled cfg d he]
  · cases hde : d.isEmptyDf
    · set Qs := cfg.remove_quaternion_columns.columns.getD default_quat_columns with hQs
      cases hr : (Qs.filter d.hasCol).isEmpty
      · have h1 : (remove_quaternion_step cfg d).1 = d.dropCols (Qs.filter d.hasCol) := by
          unfold remove_quaternion_step
          rw [he, hde, ← hQs]
          simp [hr]
        rw [h1]
        cases hde2 : (d.dropCols (Qs.filter d.hasCol)).isEmptyDf
        · have h2 : Qs.filter (d.dropCols (Qs.filter d.hasCol)).hasCol = [] := by
            rw [List.filter_eq_nil_iff]
            intro a ha hcol
            have hda : d.hasCol a = true := hasCol_dropCols_le _ _ _ hcol
            have hmem : a ∈ Qs.filter d.hasCol := List.mem_filter.mpr ⟨ha, hda⟩
            have h3 := hasCol_dropCols_of_mem d (Qs.filter d.hasCol) a hmem
            rw [h3] at hcol
            cases hcol
          unfold remove_quaternion_step
          rw [he, hde2, ← hQs]
          simp [h2]
        · exact quat_step_empty cfg _ hde2
      · have h1 : (remove_quaternion_step cfg d).1 = d := by
          unfold remove_quaternion_step
          rw [he, hde, ← hQs]
          simp [hr]
        rw [h1]
        exact h1
    · have h1 := quat_step_empty cfg d hde
      rw [h1]
      exact quat_step_empty cfg d hde

theorem anomaly_step_df_cases (cfg : CleanConfig) (fi : FileInfo) :
    (∀ d : PyDf, (anomaly_step cfg fi d).1 = d) ∨
    (∀ d : PyDf, (anomaly_step cfg fi d).1 =
      if d.isEmptyDf then d else (⟨[]⟩ : PyDf)) := by
  cases he : cfg.anomaly_detection.enabled
  · left; intro d; unfold anomaly_step; simp [he]
  · cases ha : (anomaly_entries cfg fi).isEmpty
    · cases hf : cfg.anomaly_detection.flag_only.getD true
      · right; intro d
        unfold anomaly_step
        cases hde : d.isEmptyDf
        · simp [he, hde, ha, hf]
        · simp [he, hde]
      · left; intro d
        unfold anomaly_step
        cases hde : d.isEmptyDf
        · simp [he, hde, ha, hf]
        · simp [he, hde]
    · left; intro d
      unfold anomaly_step
      cases hde : d.isEmptyDf
      · simp [he, hde, ha]
      · simp [he, hde]


/-- Three-row position table: the craft moves between rows 0 and 1 and then
    holds still, so the velocity computed over the sampled segments is
    positive on rows 0-1 and zero on the final segment. -/
def cdf7 : PyDf :=
  ⟨[numCol "position_n" [0, 1, 1], numCol "position_e" [0, 0, 0],
    numCol "position_d" [0, 0, 0]]⟩

/-- Configuration with only remove-static-samples enabled. -/
def cfg7 : CleanConfig :=
  { cfg0 with remove_static_samples := { enabled := true, speed_threshold := none } }

/-- File context for the C7 counterexample (size and metrics immaterial). -/
def fi7 : FileInfo :=
  { filename := "t.csv"
    content := "x"
    row_count := some 3
    file_size_mb := some Q.zero
    file_size_bytes := some Q.zero
    trajectory_metrics := none }

/-- C7 counterexample: with only remove-static-samples enabled, a second
    cleaning pass on the first pass output changes the table again (pass one
    keeps one moving row and stores its computed velocity; pass two
    recomputes a zero velocity for the single remaining row and drops it),
    so cleaning is not idempotent for every configuration. -/
theorem claim_C7_counterexample :
    (apply_cleaning_operations_ops fi7 cfg7
        (apply_cleaning_operations_ops fi7 cfg7 cdf7).finalDf).finalDf ≠
      (apply_cleaning_operations_ops fi7 cfg7 cdf7).finalDf := by decide

theorem qqMul_none_l (b : QQ) : qqMul none b = none := by cases b <;> rfl

theorem qqAdd_none_l (b : QQ) : qqAdd none b = none := by cases b <;> rfl

theorem qqAdd_none_r (a : QQ) : qqAdd a none = none := by cases a <;> rfl

theorem sqrtGtQQ_none (thr : Q) : sqrtGtQQ none thr = false := rfl

/-- The NaN-propagating (numpy) window predicate implies the NaN-skipping
    (pandas) one: when the numpy path sees no NaN, the two spreads are the
    same expression, and when it sees one its spread is NaN and the
    predicate is false. -/
theorem sqrtGt_np_imp (df : PyDf) (i w : Nat) (thr : Q)
    (h : sqrtGtQQ (windowSpreadSq df i w true) thr = true) :
    sqrtGtQQ (windowSpreadSq df i w false) thr = true := by
  unfold windowSpreadSq at h ⊢
  dsimp only at h ⊢
  cases h1 : (((df.colQQ "position_n").drop i).take w).any (fun c => c.isNone) with
  | true =>
    rw [h1] at h
    simp only [Bool.true_and, Bool.false_and, if_true, qqMul_none_l, qqAdd_none_l,
      qqAdd_none_r, sqrtGtQQ_none] at h
    exact Bool.noConfusion h
  | false =>
    cases h2 : (((df.colQQ "position_e").drop i).take w).any (fun c => c.isNone) with
    | true =>
      rw [h1, h2] at h
      simp only [Bool.true_and, Bool.false_and, if_true, if_false, qqMul_none_l,
        qqAdd_none_l, qqAdd_none_r, sqrtGtQQ_none] at h
      exact Bool.noConfusion h
    | false =>
      cases h3 : (((df.colQQ "position_d").drop i).take w).any (fun c => c.isNone) with
      | true =>
        rw [h1, h2, h3] at h
        simp only [Bool.true_and, Bool.false_and, if_true, if_false, qqMul_none_l,
          qqAdd_none_l, qqAdd_none_r, sqrtGtQQ_none] at h
        exact Bool.noConfusion h
      | false =>
        rw [h1, h2, h3] at h
        simp only [Bool.true_and, Bool.false_and, if_false] at h ⊢
        exact h

/-- The window spread reads only the three position columns, so equal
    windows give equal spreads. -/
theorem windowSpreadSq_congr (z df : PyDf) (i j w : Nat) (u : Bool)
    (h1 : (z.colQQ "position_n").drop i = (df.colQQ "position_n").drop j)
    (h2 : (z.colQQ "position_e").drop i = (df.colQQ "position_e").drop j)
    (h3 : (z.colQQ "position_d").drop i = (df.colQQ "position_d").drop j) :
    windowSpreadSq z i w u = windowSpreadSq df j w u := by
  unfold windowSpreadSq
  dsimp only
  rw [h1, h2, h3]

/-- find? on a list whose head satisfies the predicate returns the head
    (stated with the predicate explicit for unification). -/
theorem find_head_pos {A : Type} (p : A → Bool) (a : A) (l : List A) (h : p a = true) :
    (a :: l).find? p = some a := List.find?_cons_of_pos l h

/-- A dense scan whose very first window already passes returns 0. -/
theorem trim_small_scan_zero (df2 : PyDf) (w : Nat) (thr : Q)
    (h : sqrtGtQQ (windowSpreadSq df2 0 w false) thr = true) :
    trim_small_scan df2 w thr = 0 := by
  unfold trim_small_scan
  cases hnw : df2.nrows - w with
  | zero => simp [List.range_zero]
  | succ m =>
    rw [List.range_succ_eq_map]
    rw [find_head_pos (fun i => sqrtGtQQ (windowSpreadSq df2 i w false) thr) 0 _ h]

/-- A stride-sampled scan whose very first window already passes returns 0:
    index 0 is the first stride sample, and the refinement then retests
    index 0 first. -/
theorem trim_large_scan_zero (df2 : PyDf) (w sr : Nat) (thr : Q) (hsr : 0 < sr)
    (h : sqrtGtQQ (windowSpreadSq df2 0 w true) thr = true) :
    trim_large_scan df2 w sr thr = 0 := by
  unfold trim_large_scan
  cases hnw : df2.nrows - w with
  | zero => simp [List.range_zero]
  | succ m =>
    rw [List.range_succ_eq_map]
    rw [List.filter_cons_of_pos (by simp)]
    rw [find_head_pos (fun i => sqrtGtQQ (windowSpreadSq df2 i w true) thr) 0 _ h]
    obtain ⟨k, hk⟩ : ∃ k, min (0 + sr) (m + 1) = k + 1 := ⟨min (0 + sr) (m + 1) - 1, by omega⟩
    dsimp only
    rw [hk]
    unfold rangeFromTo
    rw [Nat.sub_zero, List.range_succ_eq_map]
    rw [List.map_cons]
    rw [find_head_pos (fun j => sqrtGtQQ (windowSpreadSq df2 j w true) thr) (0 + 0) _ h]

/-- A dense scan returning a positive index found a passing window there. -/
theorem trim_small_scan_pos (df : PyDf) (w : Nat) (thr : Q) (s : Nat)
    (h : trim_small_scan df w thr = s) (hs : 0 < s) :
    sqrtGtQQ (windowSpreadSq df s w false) thr = true := by
  unfold trim_small_scan at h
  cases hf : (List.range (df.nrows - w)).find?
      (fun i => sqrtGtQQ (windowSpreadSq df i w false) thr) with
  | none => rw [hf] at h; dsimp only at h; omega
  | some i =>
    rw [hf] at h
    dsimp only at h
    have hp := List.find?_some hf
    rw [h] at hp
    simpa using hp

/-- A stride-sampled scan returning a positive index found a passing window
    there (through the refinement pass). -/
theorem trim_large_scan_pos (df : PyDf) (w sr : Nat) (thr : Q) (s : Nat)
    (h : trim_large_scan df w sr thr = s) (hs : 0 < s) :
    sqrtGtQQ (windowSpreadSq df s w true) thr = true := by
  unfold trim_large_scan at h
  cases hout : ((List.range (df.nrows - w)).filter (fun i => i % sr == 0)).find?
      (fun i => sqrtGtQQ (windowSpreadSq df i w true) thr) with
  | none => rw [hout] at h; dsimp only at h; omega
  | some i =>
    rw [hout] at h
    dsimp only at h
    cases href : (rangeFromTo i (min (i + sr) (df.nrows - w))).find?
        (fun j => sqrtGtQQ (windowSpreadSq df j w true) thr) with
    | none => rw [href] at h; dsimp only at h; omega
    | some j =>
      rw [href] at h
      dsimp only at h
      have hp := List.find?_some href
      rw [h] at hp
      simpa using hp

/-- The chosen start index depends only on the row count and the three
    position columns. -/
theorem trim_start_of_congr (z df : PyDf) (w : Nat) (thr : Q)
    (hn : z.nrows = df.nrows)
    (h1 : z.colQQ "position_n" = df.colQQ "position_n")
    (h2 : z.colQQ "position_e" = df.colQQ "position_e")
    (h3 : z.colQQ "position_d" = df.colQQ "position_d") :
    trim_start_of z w thr = trim_start_of df w thr := by
  have hs : ∀ i u, windowSpreadSq z i w u = windowSpreadSq df i w u := fun i u =>
    windowSpreadSq_congr z df i i w u (by rw [h1]) (by rw [h2]) (by rw [h3])
  unfold trim_start_of trim_large_scan trim_small_scan
  rw [hn]
  simp only [hs]

/-- On a frame whose position columns are the tail (from `s`) of those of a
    base frame, with a window at `s` of the base frame that passes under the
    scan selected by the base row count, the chosen start index is 0: window
    0 of the re-scan is exactly the window that made the first scan stop. -/
theorem trim_start_shifted_zero (df z : PyDf) (s w : Nat) (thr : Q)
    (hn : z.nrows = df.nrows - s)
    (hvn : z.colQQ "position_n" = (df.colQQ "position_n").drop s)
    (hve : z.colQQ "position_e" = (df.colQQ "position_e").drop s)
    (hvd : z.colQQ "position_d" = (df.colQQ "position_d").drop s)
    (hfalse : sqrtGtQQ (windowSpreadSq df s w false) thr = true)
    (htrue : 5000 < df.nrows - s → sqrtGtQQ (windowSpreadSq df s w true) thr = true) :
    trim_start_of z w thr = 0 := by
  have hw0 : ∀ u, windowSpreadSq z 0 w u = windowSpreadSq df s w u := fun u =>
    windowSpreadSq_congr z df 0 s w u (by rw [List.drop_zero, hvn])
      (by rw [List.drop_zero, hve]) (by rw [List.drop_zero, hvd])
  unfold trim_start_of
  by_cases h5 : 5000 < z.nrows
  · rw [if_pos h5]
    refine trim_large_scan_zero z w _ thr ?_ ?_
    · exact Nat.lt_of_lt_of_le Nat.zero_lt_one (Nat.le_max_left 1 _)
    · rw [hw0]
      exact htrue (by omega)
  · rw [if_neg h5]
    exact trim_small_scan_zero z w thr (by rw [hw0]; exact hfalse)

theorem trim_step_empty (cfg : CleanConfig) (d : PyDf) (h : d.isEmptyDf = true) :
    (trim_static_start_step cfg d).1 = d := by
  unfold trim_static_start_step
  rw [h]
  simp

/-- Trim-static-start leaves the frame unchanged whenever the start it would
    choose (under its guards) is 0. -/
theorem trim_step_eq_self (cfg : CleanConfig) (z : PyDf)
    (h : cfg.trim_static_start.enabled = true → z.isEmptyDf = false →
      required_columns.all z.hasCol = true →
      trim_start_of z (cfg.trim_static_start.window_size.getD 50)
        (cfg.trim_static_start.position_threshold.getD (Q.mk2 1 2)) = 0) :
    (trim_static_start_step cfg z).1 = z := by
  unfold trim_static_start_step
  cases he : cfg.trim_static_start.enabled
  · simp [he]
  · cases hde : z.isEmptyDf
    · cases hreq : required_columns.all z.hasCol
      · simp [he, hde, hreq]
      · simp [he, hde, hreq, h he hde hreq]
    · simp [he, hde]

/-- Trim-static-start either leaves the frame unchanged (and would then
    choose start 0 whenever its guards hold), or slices from a positive
    start whose window passed the scan selected by the frame size. -/
theorem trim_step_cases (cfg : CleanConfig) (df : PyDf) :
    ((trim_static_start_step cfg df).1 = df ∧
      (cfg.trim_static_start.enabled = true → df.isEmptyDf = false →
        required_columns.all df.hasCol = true →
        trim_start_of df (cfg.trim_static_start.window_size.getD 50)
          (cfg.trim_static_start.position_threshold.getD (Q.mk2 1 2)) = 0)) ∨
    (∃ s, 0 < s ∧ (trim_static_start_step cfg df).1 = df.sliceFrom s ∧
      sqrtGtQQ (windowSpreadSq df s (cfg.trim_static_start.window_size.getD 50) false)
        (cfg.trim_static_start.position_threshold.getD (Q.mk2 1 2)) = true ∧
      (5000 < df.nrows →
        sqrtGtQQ (windowSpreadSq df s (cfg.trim_static_start.window_size.getD 50) true)
          (cfg.trim_static_start.position_threshold.getD (Q.mk2 1 2)) = true)) := by
  cases he : cfg.trim_static_start.enabled
  · left
    constructor
    · exact trim_step_eq_self cfg df (fun h1 _ _ => by rw [he] at h1; cases h1)
    · intro h1 _ _
      cases h1
  · cases hde : df.isEmptyDf
    · cases hreq : required_columns.all df.hasCol
      · left
        constructor
        · unfold trim_static_start_step
          simp [he, hde, hreq]
        · intro _ _ h1
          cases h1
      · cases hst : trim_start_of df (cfg.trim_static_start.window_size.getD 50)
            (cfg.trim_static_start.position_threshold.getD (Q.mk2 1 2)) with
        | zero =>
          left
          exact ⟨trim_step_eq_self cfg df (fun _ _ _ => hst), fun _ _ _ => rfl⟩
        | succ n =>
          right
          refine ⟨n + 1, Nat.succ_pos n, ?_, ?_, ?_⟩
          · unfold trim_static_start_step
            simp [he, hde, hreq, hst]
          · unfold trim_start_of at hst
            by_cases h5 : 5000 < df.nrows
            · rw [if_pos h5] at hst
              exact sqrtGt_np_imp df (n + 1) _ _
                (trim_large_scan_pos df _ _ _ _ hst (Nat.succ_pos n))
            · rw [if_neg h5] at hst
              exact trim_small_scan_pos df _ _ _ hst (Nat.succ_pos n)
          · intro h5
            unfold trim_start_of at hst
            rw [if_pos h5] at hst
            exact trim_large_scan_pos df _ _ _ _ hst (Nat.succ_pos n)
    · left
      refine ⟨trim_step_empty cfg df hde, fun _ h1 _ => ?_⟩
      cases h1

theorem nrows_sliceFrom (df : PyDf) (s : Nat) : (df.sliceFrom s).nrows = df.nrows - s := by
  unfold PyDf.sliceFrom PyDf.nrows
  cases df.cols with
  | nil => simp
  | cons c t => simp

theorem wf_sliceFrom (df : PyDf) (s : Nat) (h : df.WF) : (df.sliceFrom s).WF := by
  intro c hc
  rcases List.mem_map.mp hc with ⟨c0, hc0, rfl⟩
  rw [nrows_sliceFrom]
  simp [h c0 hc0]

theorem colQQ_sliceFrom (df : PyDf) (s : Nat) (n : String) :
    (df.sliceFrom s).colQQ n = (df.colQQ n).drop s := by
  unfold PyDf.colQQ PyDf.getCol PyDf.sliceFrom
  dsimp only
  rw [List.find?_map]
  have hfun : ((fun (c : PyCol) => c.name == n) ∘
      (fun (c : PyCol) => { c with cells := c.cells.drop s })) =
      (fun (c : PyCol) => c.name == n) :=
    funext (fun c => rfl)
  cases hf : df.cols.find? (fun c => c.name == n) with
  | none => rw [hfun, hf]; simp
  | some c => rw [hfun, hf]; simp [List.map_drop]

/-- Dropping columns does not disturb lookup of a label that is not
    dropped. -/
theorem find_filter_not_dropped (l : List PyCol) (R : List String) (p : String)
    (hR : R.contains p = false) :
    (l.filter (fun c => !(R.contains c.name))).find? (fun c => c.name == p) =
      l.find? (fun c => c.name == p) := by
  induction l with
  | nil => rfl
  | cons c t ih =>
    cases hc : R.contains c.name
    · rw [List.filter_cons_of_pos (by rw [hc]; rfl)]
      cases hb : (c.name == p)
      · rw [List.find?_cons_of_neg _ (by simp [hb]), List.find?_cons_of_neg _ (by simp [hb])]
        exact ih
      · rw [find_head_pos (fun c => c.name == p) c _ hb,
          find_head_pos (fun c => c.name == p) c _ hb]
    · rw [List.filter_cons_of_neg (by rw [hc]; simp)]
      rw [List.find?_cons_of_neg _ ?hne]
      · exact ih
      case hne =>
        intro hb
        rw [beq_iff_eq] at hb
        rw [hb] at hc
        rw [hR] at hc
        exact Bool.noConfusion hc

theorem getCol_dropCols_not_mem (y : PyDf) (R : List String) (p : String)
    (h : R.contains p = false) : (y.dropCols R).getCol p = y.getCol p := by
  unfold PyDf.dropCols PyDf.getCol
  exact find_filter_not_dropped y.cols R p h

theorem colQQ_dropCols_not_mem (y : PyDf) (R : List String) (p : String)
    (h : R.contains p = false) : (y.dropCols R).colQQ p = y.colQQ p := by
  unfold PyDf.colQQ
  rw [getCol_dropCols_not_mem y R p h]

/-- On a rectangular frame, dropping columns keeps the row count as long as
    a column remains. -/
theorem nrows_dropCols_wf (y : PyDf) (R : List String) (hwf : y.WF)
    (hne : (y.dropCols R).cols ≠ []) : (y.dropCols R).nrows = y.nrows := by
  cases hc : (y.dropCols R).cols with
  | nil => exact absurd hc hne
  | cons c t =>
    have hmem : c ∈ y.cols := by
      have h2 : c ∈ (y.dropCols R).cols := by rw [hc]; exact List.mem_cons_self c t
      unfold PyDf.dropCols at h2
      exact List.mem_of_mem_filter h2
    have h3 : (y.dropCols R).nrows = c.cells.length := by
      unfold PyDf.nrows
      rw [hc]
    rw [h3]
    exact hwf c hmem

theorem cols_ne_nil_of_hasCol (z : PyDf) (p : String) (h : z.hasCol p = true) :
    z.cols ≠ [] := by
  intro hz
  unfold PyDf.hasCol PyDf.names at h
  rw [hz] at h
  exact Bool.noConfusion h

theorem cols_ne_nil_of_dropCols (y : PyDf) (R : List String)
    (h : (y.dropCols R).cols ≠ []) : y.cols ≠ [] := by
  intro hy
  apply h
  unfold PyDf.dropCols
  rw [hy]
  rfl

theorem isEmptyDf_false_parts (z : PyDf) (h : z.isEmptyDf = false) :
    z.cols ≠ [] ∧ z.nrows ≠ 0 := by
  unfold PyDf.isEmptyDf at h
  rw [Bool.or_eq_false_iff] at h
  rcases h with ⟨h1, h2⟩
  constructor
  · intro hz
    rw [hz] at h1
    simp at h1
  · intro hz
    rw [hz] at h2
    simp at h2

theorem isEmptyDf_false_of (df : PyDf) (h1 : df.cols ≠ []) (h2 : df.nrows ≠ 0) :
    df.isEmptyDf = false := by
  unfold PyDf.isEmptyDf
  rw [Bool.or_eq_false_iff]
  constructor
  · cases hc : df.cols with
    | nil => exact absurd hc h1
    | cons c t => rfl
  · rw [beq_eq_false_iff_ne]
    exact h2

theorem required_all_dropCols (y : PyDf) (R : List String)
    (h : required_columns.all (y.dropCols R).hasCol = true) :
    required_columns.all y.hasCol = true := by
  rw [List.all_eq_true] at h ⊢
  intro p hp
  exact hasCol_dropCols_le y R p (h p hp)

/-- The quaternion-removal step returns either the frame unchanged or the
    frame with some column list dropped. -/
theorem quat_step_res (cfg : CleanConfig) (y : PyDf) :
    (remove_quaternion_step cfg y).1 = y ∨
    ∃ R, (remove_quaternion_step cfg y).1 = y.dropCols R := by
  unfold remove_quaternion_step
  cases he : cfg.remove_quaternion_columns.enabled
  · left; simp [he]
  · cases hde : y.isEmptyDf
    · cases hr : ((cfg.remove_quaternion_columns.columns.getD default_quat_columns).filter
          y.hasCol).isEmpty
      · right
        refine ⟨(cfg.remove_quaternion_columns.columns.getD default_quat_columns).filter
          y.hasCol, ?_⟩
        simp [he, hde, hr]
      · left; simp [he, hde, hr]
    · left; simp [he, hde]

theorem not_contains_of_hasCol_dropCols (y : PyDf) (R : List String) (p : String)
    (hp : (y.dropCols R).hasCol p = true) : R.contains p = false := by
  cases hcont : R.contains p
  · rfl
  · exfalso
    have hpR : p ∈ R := by
      rcases List.contains_iff_exists_mem_beq.mp hcont with ⟨a, ha, hb⟩
      rw [beq_iff_eq] at hb
      rwa [hb]
    have h2 := hasCol_dropCols_of_mem y R p hpR
    rw [h2] at hp
    exact Bool.noConfusion hp

/-- C7 (amended): on a rectangular frame (pandas guarantees rectangularity),
    cleaning is idempotent once the two genuinely non-idempotent operations,
    header management and remove-static-samples, are disabled; file-size
    filtering, static-flight detection, trim-static-start, quaternion-column
    removal, anomaly detection and resequencing all converge after one
    application (for trim, the re-scan of the trimmed frame retests at
    window 0 exactly the window that made the first scan stop, so the second
    start index is 0). -/
theorem claim_C7_idempotent_without_row_ops (fi : FileInfo) (cfg : CleanConfig) (df : PyDf)
    (hwf : df.WF)
    (h1 : cfg.header_management.enabled = false)
    (h3 : cfg.remove_static_samples.enabled = false) :
    (apply_cleaning_operations_ops fi cfg
        (apply_cleaning_operations_ops fi cfg df).finalDf).finalDf =
      (apply_cleaning_operations_ops fi cfg df).finalDf := by
  have e2 : ∀ x, header_management_step cfg x = (x, [], []) :=
    fun x => hm_step_disabled cfg x h1
  have e5 : ∀ x, remove_static_samples_step cfg x = (x, [], []) :=
    fun x => rss_step_disabled cfg x h3
  have hg : ∀ d : PyDf, (apply_cleaning_operations_ops fi cfg d).finalDf =
      if fsfShort cfg fi then d
      else (anomaly_step cfg fi (remove_quaternion_step cfg
        (trim_static_start_step cfg (static_flight_step cfg fi d).1).1).1).1 := by
    intro d
    unfold apply_cleaning_operations_ops
    cases hf : fsfShort cfg fi
    · simp [hf, e2, e5]
    · simp [hf]
  rw [hg, hg]
  cases hf : fsfShort cfg fi
  · simp only [hf, Bool.false_eq_true, if_false]
    rcases sf_step_df_cases cfg fi with hs | hs
    · have hte : (trim_static_start_step cfg (⟨[]⟩ : PyDf)).1 = (⟨[]⟩ : PyDf) :=
        trim_step_empty cfg _ isEmptyDf_nil
      have hqe : (remove_quaternion_step cfg (⟨[]⟩ : PyDf)).1 = (⟨[]⟩ : PyDf) :=
        quat_step_empty cfg _ isEmptyDf_nil
      have hae : (anomaly_step cfg fi (⟨[]⟩ : PyDf)).1 = (⟨[]⟩ : PyDf) :=
        anomaly_step_empty cfg fi _ isEmptyDf_nil
      simp only [hs, hte, hqe, hae]
    · simp only [hs]
      rcases trim_step_cases cfg df with ⟨hT, h0⟩ | ⟨s, hs0, hT, hfalse, htrue⟩
      · rw [hT]
        have key : (trim_static_start_step cfg (remove_quaternion_step cfg df).1).1 =
            (remove_quaternion_step cfg df).1 := by
          rcases quat_step_res cfg df with hq | ⟨R, hq⟩
          · rw [hq]
            exact hT
          · rw [hq]
            apply trim_step_eq_self
            intro he hze hreqz
            have hall : ∀ p ∈ required_columns, (df.dropCols R).hasCol p = true := by
              rw [List.all_eq_true] at hreqz
              exact hreqz
            have hreqdf : required_columns.all df.hasCol = true :=
              required_all_dropCols df R hreqz
            have hparts := isEmptyDf_false_parts _ hze
            have hzn : (df.dropCols R).nrows = df.nrows :=
              nrows_dropCols_wf df R hwf hparts.1
            have hdfe : df.isEmptyDf = false := by
              apply isEmptyDf_false_of
              · exact cols_ne_nil_of_dropCols df R hparts.1
              · rw [← hzn]
                exact hparts.2
            have hcq : ∀ p ∈ required_columns, (df.dropCols R).colQQ p = df.colQQ p :=
              fun p hp => colQQ_dropCols_not_mem df R p
                (not_contains_of_hasCol_dropCols df R p (hall p hp))
            rw [trim_start_of_congr _ df _ _ hzn
              (hcq "position_n" (by simp [required_columns]))
              (hcq "position_e" (by simp [required_columns]))
              (hcq "position_d" (by simp [required_columns]))]
            exact h0 he hdfe hreqdf
        rcases anomaly_step_df_cases cfg fi with ha | ha
        · simp only [ha]
          rw [key]
          exact quat_step_idem cfg df
        · simp only [ha]
          cases hqe : (remove_quaternion_step cfg df).1.isEmptyDf
          · simp only [Bool.false_eq_true, if_false]
            rw [trim_step_empty cfg _ isEmptyDf_nil, quat_step_empty cfg _ isEmptyDf_nil]
            simp
          · have h4 := trim_step_empty cfg _ hqe
            simp [h4, quat_step_empty cfg _ hqe, hqe]
      · rw [hT]
        have hyv : ∀ p, (df.sliceFrom s).colQQ p = (df.colQQ p).drop s :=
          fun p => colQQ_sliceFrom df s p
        have hyn : (df.sliceFrom s).nrows = df.nrows - s := nrows_sliceFrom df s
        have hywf : (df.sliceFrom s).WF := wf_sliceFrom df s hwf
        have key : (trim_static_start_step cfg
            (remove_quaternion_step cfg (df.sliceFrom s)).1).1 =
            (remove_quaternion_step cfg (df.sliceFrom s)).1 := by
          rcases quat_step_res cfg (df.sliceFrom s) with hq | ⟨R, hq⟩
          · rw [hq]
            apply trim_step_eq_self
            intro _ _ _
            exact trim_start_shifted_zero df _ s _ _ hyn (hyv _) (hyv _) (hyv _)
              hfalse (fun h5 => htrue (by omega))
          · rw [hq]
            apply trim_step_eq_self
            intro he hze hreqz
            have hall : ∀ p ∈ required_columns,
                ((df.sliceFrom s).dropCols R).hasCol p = true := by
              rw [List.all_eq_true] at hreqz
              exact hreqz
            have hparts := isEmptyDf_false_parts _ hze
            have hzn : ((df.sliceFrom s).dropCols R).nrows = df.nrows - s := by
              rw [nrows_dropCols_wf _ R hywf hparts.1, hyn]
            have hcq : ∀ p ∈ required_columns,
                ((df.sliceFrom s).dropCols R).colQQ p = (df.colQQ p).drop s := by
              intro p hp
              rw [colQQ_dropCols_not_mem _ R p
                (not_contains_of_hasCol_dropCols _ R p (hall p hp))]
              exact hyv p
            exact trim_start_shifted_zero df _ s _ _ hzn
              (hcq "position_n" (by simp [required_columns]))
              (hcq "position_e" (by simp [required_columns]))
              (hcq "position_d" (by simp [required_columns]))
              hfalse (fun h5 => htrue (by omega))
        rcases anomaly_step_df_cases cfg fi with ha | ha
        · simp only [ha]
          rw [key]
          exact quat_step_idem cfg (df.sliceFrom s)
        · simp only [ha]
          cases hqe : (remove_quaternion_step cfg (df.sliceFrom s)).1.isEmptyDf
          · simp only [Bool.false_eq_true, if_false]
            rw [trim_step_empty cfg _ isEmptyDf_nil, quat_step_empty cfg _ isEmptyDf_nil]
            simp
          · have h4 := trim_step_empty cfg _ hqe
            simp [h4, quat_step_empty cfg _ hqe, hqe]
  · simp [hf]

/-- C7 witness: the amended idempotence theorem applied at a concrete
    rectangular table with the two row operations disabled. -/
theorem claim_C7_idempotent_without_row_ops_witness :
    posDf2.WF ∧
    cfg0.header_management.enabled = false ∧
    cfg0.remove_static_samples.enabled = false ∧
    (apply_cleaning_operations_ops fiKept cfg0
        (apply_cleaning_operations_ops fiKept cfg0 posDf2).finalDf).finalDf =
      (apply_cleaning_operations_ops fiKept cfg0 posDf2).finalDf :=
  ⟨by decide, by decide, by decide,
    claim_C7_idempotent_without_row_ops fiKept cfg0 posDf2 (by decide) (by decide) (by decide)⟩
